import Mathlib

/-!
Shallow embedding of the ai-salon-mvp core components, translated from the
Python sources under `src/`:

* `SalonManager` (src/src/scribe_agents/salon/salon_manager.py) — the salon
  session state machine, message log and per-participant statistics.
* `TurnCoordinator` (src/src/scribe_agents/salon/turn_coordinator.py) — the
  turn-scheduling strategies, turn history and fairness statistics.
* `ConsensusEngine._detect_agreement`
  (src/src/scribe_agents/salon/consensus_engine.py) — greedy statement
  clustering and consensus-point extraction.
* `ProviderRouter.send_message` / `_invoke_mock`
  (src/src/scribe_core/provider_router.py) — retry loop, option clamping,
  metadata enrichment and mock fallback.
* `AnthropicAgentRuntime.run` (src/src/scribe_agents/runtime/anthropic.py) —
  the bounded tool-calling loop.

External effects are modelled as explicit oracle parameters: wall-clock time
and UUID generation become arguments, backend/provider invocations (HTTP,
subprocess) become functions supplied by the caller, and Python exceptions
become `Except`/`Option` error values.  Python `float` arithmetic on the few
ratios involved (consensus threshold, fairness variance) is modelled over
`Rat`; every concrete input used in a theorem below is chosen so that the
rational value and the IEEE-double value coincide exactly.
-/

namespace AISalon

/-! ## SalonManager (salon_manager.py) -/

/-- `SalonState` enum from salon_manager.py. -/
inductive SalonState where
  | initializing
  | active
  | paused
  | consensusBuilding
  | completed
  | error
  deriving DecidableEq, Repr

/-- A single message in the salon conversation (`SalonMessage` dataclass).
Timestamps are modelled as abstract `Nat` ticks supplied by the caller
(the Python code reads `datetime.utcnow()`), UUIDs as caller-supplied
strings. -/
structure SalonMessage where
  id : String
  participantId : String
  content : String
  timestamp : Nat
  turnNumber : Nat
  metadata : List (String × String)
  deriving DecidableEq, Repr

/-- Per-participant statistics kept in `SalonManager.participant_stats`. -/
structure ParticipantStats where
  turnCount : Nat
  totalCharacters : Nat
  lastMessageAt : Option Nat
  deriving DecidableEq, Repr

/-- Errors raised by `SalonManager` methods.  The Python code raises
`ValueError` in both cases; the messages distinguish the two classes:
`"Cannot <op> salon in state <state>"` (carrying the current state and the
requested operation, hence the requested target state) and
`"Participant <id> not in salon"`. -/
inductive SalonError where
  | stateTransition (current : SalonState) (requested : SalonState)
  | unknownParticipant (pid : String)
  deriving DecidableEq, Repr

/-- The mutable state of a `SalonManager` instance.  `participant_stats` is a
Python dict keyed exactly by the fixed participant list; it is modelled as a
total function (queries outside the roster never occur in the embedded
operations). -/
structure Salon where
  participants : List String
  state : SalonState
  currentTurn : Nat
  messages : List SalonMessage
  stats : String → ParticipantStats

/-- `SalonManager.__init__`: fresh session in `INITIALIZING` with zeroed
stats and empty log. -/
def Salon.init (participants : List String) : Salon :=
  { participants := participants
    state := SalonState.initializing
    currentTurn := 0
    messages := []
    stats := fun _ => ⟨0, 0, none⟩ }

/-- `SalonManager.start`: only valid from `INITIALIZING`; otherwise raises and
leaves the object untouched (the Python `raise` precedes every mutation). -/
def Salon.start (s : Salon) : Salon × Option SalonError :=
  if s.state ≠ SalonState.initializing then
    (s, some (SalonError.stateTransition s.state SalonState.active))
  else
    ({ s with state := SalonState.active }, none)

/-- `SalonManager.pause`: only valid from `ACTIVE`. -/
def Salon.pause (s : Salon) : Salon × Option SalonError :=
  if s.state ≠ SalonState.active then
    (s, some (SalonError.stateTransition s.state SalonState.paused))
  else
    ({ s with state := SalonState.paused }, none)

/-- `SalonManager.resume`: only valid from `PAUSED`. -/
def Salon.resume (s : Salon) : Salon × Option SalonError :=
  if s.state ≠ SalonState.paused then
    (s, some (SalonError.stateTransition s.state SalonState.active))
  else
    ({ s with state := SalonState.active }, none)

/-- `SalonManager.complete`: always transitions to `COMPLETED`; completing
from a state other than `ACTIVE`/`CONSENSUS_BUILDING` only logs a warning. -/
def Salon.complete (s : Salon) : Salon :=
  { s with state := SalonState.completed }

/-- `SalonManager.add_message`: rejects unknown participants, otherwise
appends one `SalonMessage` stamped with the current turn and updates that
participant's stats.  `newId` and `now` stand for `uuid.uuid4()` and
`datetime.utcnow()`. -/
def Salon.addMessage (s : Salon) (participantId content : String)
    (metadata : List (String × String)) (newId : String) (now : Nat) :
    Salon × Except SalonError SalonMessage :=
  if participantId ∉ s.participants then
    (s, Except.error (SalonError.unknownParticipant participantId))
  else
    let message : SalonMessage :=
      { id := newId
        participantId := participantId
        content := content
        timestamp := now
        turnNumber := s.currentTurn
        metadata := metadata }
    let s' : Salon :=
      { s with
        messages := s.messages ++ [message]
        stats := fun p =>
          if p = participantId then
            { turnCount := (s.stats p).turnCount + 1
              totalCharacters := (s.stats p).totalCharacters + content.length
              lastMessageAt := some now }
          else s.stats p }
    (s', Except.ok message)

/-- `SalonManager.advance_turn`: unconditionally increments the turn
counter. -/
def Salon.advanceTurn (s : Salon) : Salon :=
  { s with currentTurn := s.currentTurn + 1 }

/-- One caller-visible operation on a `SalonManager` (for invariant
statements over arbitrary operation sequences). -/
inductive SalonOp where
  | start
  | pause
  | resume
  | complete
  | advanceTurn
  | addMessage (participantId content : String)
      (metadata : List (String × String)) (newId : String) (now : Nat)

/-- The state reached after one operation.  A raising operation leaves the
state exactly as it was (every Python `raise` in salon_manager.py happens
before any field assignment). -/
def Salon.applyOp (s : Salon) : SalonOp → Salon
  | SalonOp.start => (s.start).1
  | SalonOp.pause => (s.pause).1
  | SalonOp.resume => (s.resume).1
  | SalonOp.complete => s.complete
  | SalonOp.advanceTurn => s.advanceTurn
  | SalonOp.addMessage pid content md newId now =>
      (s.addMessage pid content md newId now).1

/-- The state after a sequence of operations. -/
def Salon.runOps (s : Salon) : List SalonOp → Salon
  | [] => s
  | op :: ops => (s.applyOp op).runOps ops

/-- Log invariant: every logged turn number is at most the current turn
counter, and turn numbers are pairwise non-decreasing along the log. -/
def Salon.logInvariant (s : Salon) : Prop :=
  (∀ m ∈ s.messages, m.turnNumber ≤ s.currentTurn) ∧
    s.messages.Pairwise (fun m₁ m₂ => m₁.turnNumber ≤ m₂.turnNumber)

/-! ## TurnCoordinator (turn_coordinator.py) -/

/-- `TurnStrategy` enum from turn_coordinator.py. -/
inductive TurnStrategy where
  | roundRobin
  | priority
  | debate
  | freeForm
  | moderated
  | random
  deriving DecidableEq, Repr

/-- `Turn` dataclass: one turn assignment (optional fields default to
`None`/`{}` in every construction site of the source). -/
structure Turn where
  participantId : String
  turnNumber : Nat
  strategy : TurnStrategy
  expectedDurationSeconds : Option Nat := none
  rebuttalTo : Option String := none
  deriving DecidableEq, Repr

/-- The mutable state of a `TurnCoordinator` instance.
`participant_turn_counts` and `_priority_scores` are dicts keyed by the
participant list; they are modelled as total functions (a lookup at a key
outside the roster would be a Python `KeyError`, so theorems about the debate
strategy carry side-membership hypotheses). -/
structure Coordinator where
  participants : List String
  strategy : TurnStrategy
  moderatorId : Option String
  turnCount : Nat
  turnHistory : List Turn
  counts : String → Nat
  rrIndex : Nat
  debateSideA : List String
  debateSideB : List String
  priorities : String → Rat

/-- `TurnCoordinator.__init__`. -/
def Coordinator.init (participants : List String) (strategy : TurnStrategy)
    (moderatorId : Option String) : Coordinator :=
  { participants := participants
    strategy := strategy
    moderatorId := moderatorId
    turnCount := 0
    turnHistory := []
    counts := fun _ => 0
    rrIndex := 0
    debateSideA := []
    debateSideB := []
    priorities := fun _ => 1 }

/-- `TurnCoordinator._record_turn`: append to history, bump the speaker's
count and the global turn counter. -/
def Coordinator.recordTurn (c : Coordinator) (t : Turn) : Coordinator :=
  { c with
    turnHistory := c.turnHistory ++ [t]
    counts := fun p => if p = t.participantId then c.counts p + 1 else c.counts p
    turnCount := c.turnCount + 1 }

/-- `TurnCoordinator._next_round_robin`: take the participant at the cyclic
index and advance the index modulo the roster size.  (An empty roster is a
Python `IndexError`; theorems assume a non-empty roster.) -/
def Coordinator.nextRoundRobin (c : Coordinator) : String × Coordinator :=
  (c.participants.getD c.rrIndex "",
    { c with rrIndex := (c.rrIndex + 1) % c.participants.length })

/-- Python `min(side, key=lambda p: counts[p])`: the first element of the
list attaining the minimal count (CPython scans left to right and replaces
the current best only on a strictly smaller key). -/
def leastUsed (counts : String → Nat) : List String → String
  | [] => ""
  | x :: xs => xs.foldl (fun best p => if counts p < counts best then p else best) x

/-- Cumulative turn count of one debate side
(`sum(self.participant_turn_counts[p] for p in side)`). -/
def Coordinator.sideTurns (c : Coordinator) (side : List String) : Nat :=
  (side.map c.counts).sum

/-- `TurnCoordinator._next_debate`: unconfigured sides fall back to
round-robin; otherwise pick side A when its cumulative count is `≤` side B's
(so ties go to side A), and the least-used member within the chosen side. -/
def Coordinator.nextDebate (c : Coordinator) : String × Coordinator :=
  if c.debateSideA = [] ∨ c.debateSideB = [] then
    c.nextRoundRobin
  else
    let side :=
      if c.sideTurns c.debateSideA ≤ c.sideTurns c.debateSideB then c.debateSideA
      else c.debateSideB
    (leastUsed c.counts side, c)

/-- `TurnCoordinator._next_priority`: decay-adjusted scores
`base / (1 + turns * 0.1)` and a cumulative-weight walk against
`rand * total`, where `rand` stands for `random.random()`.  Falls back to the
first participant when the walk finishes without selecting. -/
def Coordinator.nextPriority (c : Coordinator) (rand : Rat) : String :=
  let adjusted := c.participants.map
    (fun p => (p, c.priorities p / (1 + (c.counts p : Rat) * (1 / 10))))
  let total := (adjusted.map Prod.snd).sum
  let r := rand * total
  let rec walk : Rat → List (String × Rat) → Option String
    | _, [] => none
    | acc, (p, score) :: rest =>
        if r ≤ acc + score then some p else walk (acc + score) rest
  (walk 0 adjusted).getD (c.participants.getD 0 "")

/-- `TurnCoordinator._next_available` (free-form strategy): participant with
the fewest turns so far. -/
def Coordinator.nextAvailable (c : Coordinator) : String :=
  leastUsed c.counts c.participants

/-- `TurnCoordinator.get_next_turn`: dispatch on the strategy, build the
`Turn` stamped with the pre-increment turn counter and record it.
`rand` models `random.random()` (priority strategy) and `randIdx` models the
index drawn by `random.choice` (random strategy); the remaining strategies
ignore both oracles. -/
def Coordinator.getNextTurn (c : Coordinator) (rand : Rat) (randIdx : Nat) :
    Turn × Coordinator :=
  let pc : String × Coordinator :=
    match c.strategy with
    | TurnStrategy.roundRobin => c.nextRoundRobin
    | TurnStrategy.debate => c.nextDebate
    | TurnStrategy.priority => (c.nextPriority rand, c)
    | TurnStrategy.random => (c.participants.getD randIdx "", c)
    | TurnStrategy.moderated =>
        (c.moderatorId.getD (c.participants.getD 0 ""), c)
    | TurnStrategy.freeForm => (c.nextAvailable, c)
  let turn : Turn :=
    { participantId := pc.1
      turnNumber := pc.2.turnCount
      strategy := pc.2.strategy }
  (turn, pc.2.recordTurn turn)

/-- `TurnCoordinator.setup_debate`: replaces the two side lists
unconditionally.  The source validates nothing here (it only logs a warning
when the strategy is not `debate`), so the error component is always
`none`. -/
def Coordinator.setupDebate (c : Coordinator) (sideA sideB : List String) :
    Coordinator × Option String :=
  ({ c with debateSideA := sideA, debateSideB := sideB }, none)

/-- `TurnCoordinator.set_priority`: `ValueError` when the participant is not
in the roster (before any mutation); otherwise update the score. -/
def Coordinator.setPriority (c : Coordinator) (participantId : String)
    (priority : Rat) : Coordinator × Option String :=
  if participantId ∉ c.participants then
    (c, some ("Participant " ++ participantId ++ " not in salon"))
  else
    ({ c with priorities := fun p =>
        if p = participantId then priority else c.priorities p }, none)

/-- Result of `TurnCoordinator.get_turn_statistics`. -/
structure TurnStatistics where
  totalTurns : Nat
  participantTurnCounts : List (String × Nat)
  averageTurnsPerParticipant : Rat
  fairnessVariance : Rat
  strategy : TurnStrategy
  deriving DecidableEq, Repr

/-- `TurnCoordinator._calculate_fairness_variance`: population variance of
the per-participant turn counts (0 for an empty roster). -/
def Coordinator.fairnessVariance (c : Coordinator) : Rat :=
  if c.participants = [] then 0
  else
    let counts := c.participants.map (fun p => (c.counts p : Rat))
    let mean := counts.sum / (counts.length : Rat)
    ((counts.map (fun x => (x - mean) ^ 2)).sum) / (counts.length : Rat)

/-- `TurnCoordinator.get_turn_statistics`.  The Python dict
`participant_turn_counts` is keyed by the (duplicate-free) roster; with a
duplicate-free `participants` list the dict views below coincide with maps
over the list. -/
def Coordinator.getTurnStatistics (c : Coordinator) : TurnStatistics :=
  let totalTurns := (c.participants.map c.counts).sum
  { totalTurns := totalTurns
    participantTurnCounts := c.participants.map (fun p => (p, c.counts p))
    averageTurnsPerParticipant :=
      if c.participants = [] then 0
      else (totalTurns : Rat) / (c.participants.length : Rat)
    fairnessVariance := c.fairnessVariance
    strategy := c.strategy }

/-- `n` successive `get_next_turn` calls, fed by oracle streams for the two
randomness sources (indexed by the coordinator's running turn counter). -/
def Coordinator.runTurns (rand : Nat → Rat) (randIdx : Nat → Nat) :
    Coordinator → Nat → Coordinator
  | c, 0 => c
  | c, Nat.succ n =>
      Coordinator.runTurns rand randIdx
        (c.getNextTurn (rand c.turnCount) (randIdx c.turnCount)).2 n

/-! ## ConsensusEngine (consensus_engine.py) -/

/-- The stop words removed by `_detect_agreement` when computing a
statement's key terms. -/
def stopWords : List String :=
  ["the", "a", "an", "and", "or", "but", "in", "on", "at"]

/-- A regex `\w` word character, modelled as ASCII alphanumerics plus
underscore (all inputs in the theorems below are ASCII). -/
def isWordChar (c : Char) : Bool :=
  c.isAlphanum || c == '_'

/-- Character-list splitter behind `wordTokens`: collect maximal runs of
word characters (`acc` holds the current run, reversed). -/
def splitWordsAux : List Char → List Char → List String
  | [], acc => if acc.isEmpty then [] else [String.mk acc.reverse]
  | c :: cs, acc =>
      if isWordChar c then splitWordsAux cs (c :: acc)
      else if acc.isEmpty then splitWordsAux cs []
      else String.mk acc.reverse :: splitWordsAux cs []

/-- `re.findall(r'\w+', s.lower())`: maximal word-character runs of the
lowercased text. -/
def wordTokens (s : String) : List String :=
  splitWordsAux (s.toList.map Char.toLower) []

/-- `set(re.findall(r'\w+', statement.lower())) - stop_words`. -/
def keyTerms (statement : String) : Finset String :=
  (wordTokens statement).toFinset \ stopWords.toFinset

/-- `set(re.findall(r'\w+', group_key.lower()))` — note the source drops no
stop words on the group-key side. -/
def groupTerms (groupKey : String) : Finset String :=
  (wordTokens groupKey).toFinset

/-- `len(key_terms & group_terms) / max(len(key_terms), 1)`. -/
def overlapRatio (kt gt : Finset String) : Rat :=
  ((kt ∩ gt).card : Rat) / (max kt.card 1 : Nat)

/-- Replace the value stored under `key` when present (Python dict
assignment keeps the original insertion position), otherwise append a new
entry. -/
def setGroup (groups : List (String × Finset String)) (key : String)
    (value : Finset String) : List (String × Finset String) :=
  if groups.any (fun g => g.1 = key) then
    groups.map (fun g => if g.1 = key then (g.1, value) else g)
  else
    groups ++ [(key, value)]

/-- One iteration of the greedy clustering loop of `_detect_agreement`:
scan the existing groups in insertion order, join the first whose
representative overlaps the statement's key terms by more than 0.3,
otherwise open a new group keyed by the statement itself. -/
def clusterStep (groups : List (String × Finset String))
    (entry : String × String) : List (String × Finset String) :=
  let participant := entry.1
  let statement := entry.2
  let kt := keyTerms statement
  match groups.find? (fun g => overlapRatio kt (groupTerms g.1) > 3 / 10) with
  | some g => groups.map (fun g' =>
      if g'.1 = g.1 then (g'.1, insert participant g'.2) else g')
  | none => setGroup groups statement {participant}

/-- The `(participant, statement)` stream fed to the clustering loop:
participants in roster order, each participant's statements in order. -/
def allStatements (positions : List (String × List String)) :
    List (String × String) :=
  positions.flatMap (fun pos => pos.2.map (fun st => (pos.1, st)))

/-- The full greedy clustering of `_detect_agreement`. -/
def clusterStatements (positions : List (String × List String)) :
    List (String × Finset String) :=
  (allStatements positions).foldl clusterStep []

/-- Python `int()` on a rational (truncation toward zero). -/
def pyInt (q : Rat) : Int :=
  if q < 0 then ⌈q⌉ else ⌊q⌋

/-- `max(2, int(len(participants) * consensus_threshold))`. -/
def minSupport (participantCount : Nat) (threshold : Rat) : Nat :=
  max 2 (pyInt ((participantCount : Rat) * threshold)).toNat

/-- Modelled from the spec: Python 3 `round()` (round half to even), the
operation the specification names for the support cutoff.  Used only to
compare the specified cutoff against the implemented `int()` truncation. -/
def roundSpec (q : Rat) : Int :=
  if q - (⌊q⌋ : Rat) < 1 / 2 then ⌊q⌋
  else if 1 / 2 < q - (⌊q⌋ : Rat) then ⌊q⌋ + 1
  else if 2 ∣ ⌊q⌋ then ⌊q⌋ else ⌊q⌋ + 1

/-- `ConsensusPoint` dataclass (the detection timestamp is external
wall-clock state and is not part of the analysed data). -/
structure ConsensusPoint where
  statement : String
  supportingParticipants : Finset String
  confidence : Rat
  deriving DecidableEq

/-- `ConsensusEngine._detect_agreement`: cluster all statements, then emit a
`ConsensusPoint` for every group whose distinct-supporter count reaches
`max(2, int(n * threshold))`, with confidence `supporters / n`. -/
def detectAgreement (participants : List String) (threshold : Rat)
    (positions : List (String × List String)) : List ConsensusPoint :=
  ((clusterStatements positions).filter (fun g =>
      minSupport participants.length threshold ≤ g.2.card)).map (fun g =>
    { statement := g.1
      supportingParticipants := g.2
      confidence := (g.2.card : Rat) / (participants.length : Rat) })

/-- Concrete fixture: a 25+-character non-question statement. -/
def exampleStatement : String :=
  "the quantum computing revolution will transform cryptography"

/-- Concrete fixture: a five-participant roster. -/
def exampleParticipants : List String := ["p1", "p2", "p3", "p4", "p5"]

/-- Concrete fixture: three of five participants assert the same
statement. -/
def examplePositions : List (String × List String) :=
  [("p1", [exampleStatement]), ("p2", [exampleStatement]),
   ("p3", [exampleStatement]), ("p4", []), ("p5", [])]

/-! ## ProviderRouter (provider_router.py)

The router's external effects are oracle parameters: `dispatch k` is the
outcome of the `try` body on attempt `k` (`Except.error e` models a raised
exception, with `e` the recorded `"TypeName: message"` string), `latMs k`
the wall-clock latency reading taken when attempt `k` returns, and the two
profile arguments the results of the two `profiles_store.resolve` calls. -/

/-- `AuthMode` enum from provider_profiles.py. -/
inductive AuthMode where
  | apiKey
  | cliOauth
  | openaiCompatible
  | mock
  deriving DecidableEq, Repr

/-- The enum's string `value`. -/
def AuthMode.val : AuthMode → String
  | AuthMode.apiKey => "api_key"
  | AuthMode.cliOauth => "cli_oauth"
  | AuthMode.openaiCompatible => "openai_compatible"
  | AuthMode.mock => "mock"

/-- The slice of `ProviderProfile` read by `send_message`/`_invoke_mock`. -/
structure ProviderProfile where
  id : String
  provider : String
  authMode : AuthMode
  deriving DecidableEq, Repr

/-- `payload["options"]` fields consulted by `send_message`
(`None` models a missing or non-`int` entry). -/
structure RouterOptions where
  maxRetries : Option Int := none
  timeoutSeconds : Option Int := none
  deriving DecidableEq, Repr

/-- The slice of the request payload read by `send_message` and
`_invoke_mock` (message bodies are consumed only inside the oracled
provider invocations). -/
structure RouterPayload where
  profileId : Option String := none
  options : Option RouterOptions := none
  mentions : List String := []
  context : List (String × String) := []
  deriving DecidableEq, Repr

/-- The `meta` dictionary of a normalized router response; `none` models an
absent key. -/
structure RouterMeta where
  authMode : Option String := none
  profileId : Option (Option String) := none
  providerProfile : Option String := none
  bridge : Option String := none
  errorMsg : Option String := none
  mentions : Option (List String) := none
  context : Option (List (String × String)) := none
  options : Option RouterOptions := none
  requestedModel : Option String := none
  resolvedModel : Option String := none
  attempt : Option Nat := none
  retries : Option Nat := none
  latencyMs : Option Nat := none
  degraded : Option Bool := none
  warnings : Option (List String) := none
  deriving DecidableEq, Repr

/-- A normalized router response: the `content`/`artifacts`/`meta`
dictionary every code path of `send_message` returns. -/
structure RouterResult where
  content : String
  artifacts : List String
  meta : RouterMeta
  deriving DecidableEq, Repr

/-- `ProviderRouter._invoke_mock`: deterministic placeholder (or
mock-fallback) response. -/
def invokeMock (profile : Option ProviderProfile) (provider model : String)
    (payload : RouterPayload) (error : Option String) : RouterResult :=
  let content :=
    match error with
    | some e =>
        "[mock-fallback " ++ provider ++ ":" ++ model ++
          "] Provider invocation failed: " ++ e ++
          ". Verify CLI OAuth/session for " ++ provider ++
          ". This turn ran in degraded mode."
    | none =>
        "[mock " ++ provider ++ ":" ++ model ++
          "] No live provider response available."
  { content := content
    artifacts := []
    meta :=
      { authMode := some ((profile.map (fun p => p.authMode.val)).getD AuthMode.mock.val)
        profileId := some (profile.map ProviderProfile.id)
        providerProfile := some ((profile.map ProviderProfile.provider).getD "mock")
        bridge := some "mock"
        errorMsg := error
        mentions := if payload.mentions ≠ [] then some payload.mentions else none
        context := if payload.context ≠ [] then some payload.context else none
        options := payload.options } }

/-- `MODEL_ALIASES` static table. -/
def modelAliases : List (String × List (String × String)) :=
  [("openai",
    [("gpt5.3-codex", "gpt-5.2-codex"),
     ("gpt-5.3-codex", "gpt-5.2-codex"),
     ("gpt5.2-codex", "gpt-5.2-codex")]),
   ("anthropic",
    [("opus4.6", "opus"),
     ("opus4.5", "opus")])]

/-- `ProviderRouter._resolve_model_alias`. -/
def resolveModelAlias (provider model : String) : String :=
  let aliasMap := ((modelAliases.lookup provider).getD [])
  (aliasMap.lookup model.trim.toLower).getD model

/-- Clamped effective retry budget: `max(0, min(3, options["max_retries"]))`
when present and integral, else `DEFAULT_MAX_RETRIES = 1`. -/
def effectiveMaxRetries (payload : RouterPayload) : Nat :=
  match payload.options.bind RouterOptions.maxRetries with
  | some v => (max 0 (min 3 v)).toNat
  | none => 1

/-- Clamped effective timeout: `max(30, min(900, options["timeout_seconds"]))`
when present and integral, else `DEFAULT_TIMEOUT_SECONDS = 300`. -/
def effectiveTimeoutSeconds (payload : RouterPayload) : Nat :=
  match payload.options.bind RouterOptions.timeoutSeconds with
  | some v => (max 30 (min 900 v)).toNat
  | none => 300

/-- The `for attempt in range(max_retries + 1)` retry loop of
`send_message`: a successful attempt's meta is enriched with
attempt/retries/latency/degraded (and the alias fields and accumulated
warnings, when applicable); on the last failed attempt the mock fallback is
returned with `degraded = True` and the full warning list.  `remaining` is
`max_retries - attempt`, so the Python guard `attempt < max_retries` is
`remaining ≠ 0`. -/
def sendLoop (dispatch : Nat → Except String RouterResult) (latMs : Nat → Nat)
    (mockProfile : Option ProviderProfile) (provider model : String)
    (payload : RouterPayload) (resolvedModel : String) :
    Nat → Nat → List String → RouterResult
  | remaining, attempt, errors =>
    match dispatch attempt with
    | Except.ok result =>
        { result with meta :=
          { result.meta with
            requestedModel :=
              if resolvedModel ≠ model then some model
              else result.meta.requestedModel
            resolvedModel :=
              if resolvedModel ≠ model then some resolvedModel
              else result.meta.resolvedModel
            attempt := some (attempt + 1)
            retries := some attempt
            latencyMs := some (latMs attempt)
            degraded := some (attempt != 0)
            warnings :=
              if errors ≠ [] then some errors else result.meta.warnings } }
    | Except.error e =>
        let errors' := errors ++ [e]
        match remaining with
        | Nat.succ remaining' =>
            sendLoop dispatch latMs mockProfile provider model payload
              resolvedModel remaining' (attempt + 1) errors'
        | 0 =>
            let degraded :=
              invokeMock mockProfile provider model payload
                (some (errors'.getLastD ""))
            { degraded with meta :=
              { degraded.meta with
                attempt := some (attempt + 1)
                retries := some attempt
                latencyMs := some (latMs attempt)
                degraded := some true
                warnings := some errors' } }

/-- `ProviderRouter.send_message`: resolve the profile (degrading straight
to mock when none resolves), clamp the options, resolve the model alias and
run the retry loop.  Total by construction — the embedded counterpart of
"never raises to the caller". -/
def sendMessage (resolvedProfile mockProfile : Option ProviderProfile)
    (dispatch : Nat → Except String RouterResult) (latMs : Nat → Nat)
    (provider model : String) (payload : RouterPayload) : RouterResult :=
  match resolvedProfile with
  | none =>
      invokeMock mockProfile provider model payload
        (some ("No enabled profile found for provider '" ++ provider ++ "'"))
  | some _ =>
      let maxRetries := effectiveMaxRetries payload
      let resolvedModel := resolveModelAlias provider model
      sendLoop dispatch latMs mockProfile provider model payload
        resolvedModel maxRetries 0 []

/-! ## AnthropicAgentRuntime (runtime/anthropic.py)

The Anthropic client is an oracle `backend : history → LLMResult`; a tool
handler is a function `ToolCall → Except String ToolExecutionResult`, where
`Except.error e` models a raised exception (converted by `_execute_tool`
into an error-tagged result) and the `ok` value stands for the handler's
return after `_normalise_tool_result`. -/

/-- `ToolCall` as consumed by the loop. -/
structure ToolCall where
  id : String
  name : String
  arguments : List (String × String) := []
  deriving DecidableEq, Repr

/-- One structured content block (assistant blocks and the `tool_result`
blocks built by `_tool_result_block`). -/
structure ContentBlock where
  blockType : String
  toolUseId : Option String := none
  blockContent : String := ""
  isError : Bool := false
  metadata : Option (List (String × String)) := none
  deriving DecidableEq, Repr

/-- Message content: a plain string or a list of blocks. -/
inductive MsgContent where
  | str (s : String)
  | blocks (bs : List ContentBlock)
  deriving DecidableEq, Repr

/-- `LLMMessage`. -/
structure LLMMessage where
  role : String
  content : MsgContent
  deriving DecidableEq, Repr

/-- `LLMResult` as read by the loop. -/
structure LLMResult where
  text : String := ""
  contentBlocks : List ContentBlock := []
  toolCalls : List ToolCall := []
  stopReason : Option String := none
  deriving DecidableEq, Repr

/-- `ToolExecutionResult` (content after `_normalise_tool_result`). -/
structure ToolExecutionResult where
  resultContent : String
  isError : Bool := false
  resultMetadata : Option (List (String × String)) := none
  deriving DecidableEq, Repr

/-- `ToolExecutionRecord`. -/
structure ToolExecutionRecord where
  call : ToolCall
  result : ToolExecutionResult
  deriving DecidableEq, Repr

/-- A handler registry entry (`RegisteredTool`, reduced to its name and
handler — the schema part of the definition is only forwarded to the
backend). -/
def ToolRegistry : Type :=
  List (String × (ToolCall → Except String ToolExecutionResult))

/-- `registry.get(call.name)`. -/
def lookupHandler (registry : ToolRegistry) (name : String) :
    Option (ToolCall → Except String ToolExecutionResult) :=
  (registry.find? (fun t => t.1 = name)).map Prod.snd

/-- `AnthropicAgentRuntime._execute_tool`: missing handler and handler
exception both become error-tagged results, never failures of the loop. -/
def executeTool (registry : ToolRegistry) (call : ToolCall) :
    ToolExecutionRecord :=
  match lookupHandler registry call.name with
  | none =>
      { call := call
        result :=
          { resultContent :=
              "Tool '" ++ call.name ++ "' is not registered with this runtime."
            isError := true } }
  | some handler =>
      match handler call with
      | Except.ok result => { call := call, result := result }
      | Except.error e =>
          { call := call, result := { resultContent := e, isError := true } }

/-- `_assistant_message_from_result`. -/
def assistantMessageFromResult (result : LLMResult) : LLMMessage :=
  if result.contentBlocks ≠ [] then
    { role := "assistant", content := MsgContent.blocks result.contentBlocks }
  else if result.text ≠ "" then
    { role := "assistant", content := MsgContent.str result.text }
  else
    { role := "assistant", content := MsgContent.str "" }

/-- `_tool_result_block`. -/
def toolResultBlock (callId : String) (result : ToolExecutionResult) :
    ContentBlock :=
  { blockType := "tool_result"
    toolUseId := some callId
    blockContent := result.resultContent
    isError := result.isError
    metadata := result.resultMetadata }

/-- `RuntimeResult`. -/
structure RuntimeResult where
  response : LLMResult
  history : List LLMMessage
  toolExecutions : List ToolExecutionRecord
  iterations : Nat
  stopReason : Option String
  deriving DecidableEq, Repr

/-- The `while True` loop of `AnthropicAgentRuntime.run`.  `remaining` is
`iteration_limit - iterations - 1` clamped at 0, so the Python guard
`iterations >= iteration_limit` (checked after the increment) is
`remaining = 0`.  Alongside the `RuntimeResult` the model returns the trace
of backend responses, one per backend call, so that theorems can speak
about the number of calls made. -/
def runLoop (backend : List LLMMessage → LLMResult) (registry : ToolRegistry) :
    Nat → List LLMMessage → List ToolExecutionRecord → Nat →
    RuntimeResult × List LLMResult
  | remaining, history, execs, iterations =>
    let response := backend history
    let history' := history ++ [assistantMessageFromResult response]
    if response.toolCalls = [] then
      ({ response := response
         history := history'
         toolExecutions := execs
         iterations := iterations + 1
         stopReason := response.stopReason }, [response])
    else
      match remaining with
      | 0 =>
          ({ response := response
             history := history'
             toolExecutions := execs
             iterations := iterations + 1
             stopReason := some "tool_iteration_limit" }, [response])
      | Nat.succ remaining' =>
          let records := response.toolCalls.map (executeTool registry)
          let history'' := history' ++ response.toolCalls.map (fun call =>
            { role := "user"
              content := MsgContent.blocks
                [toolResultBlock call.id (executeTool registry call).result] })
          let next :=
            runLoop backend registry remaining' history''
              (execs ++ records) (iterations + 1)
          (next.1, response :: next.2)

/-- The initial history of `run`: an explicit `system` prompt is prefixed
as a synthetic system message. -/
def initialHistory (system : Option String)
    (conversation : List LLMMessage) : List LLMMessage :=
  match system with
  | some sys => { role := "system", content := MsgContent.str sys } :: conversation
  | none => conversation

/-- `AnthropicAgentRuntime.run`: empty conversations are rejected (before
any backend call — the returned trace is empty), then the loop runs with
the configured iteration cap. -/
def runRuntime (backend : List LLMMessage → LLMResult)
    (registry : ToolRegistry) (system : Option String) (iterationLimit : Int)
    (conversation : List LLMMessage) :
    Except String RuntimeResult × List LLMResult :=
  if conversation = [] then
    (Except.error "Conversation history cannot be empty.", [])
  else
    let next := runLoop backend registry (iterationLimit - 1).toNat
      (initialHistory system conversation) [] 0
    (Except.ok next.1, next.2)

/-! ## Theorems -/

/-- C2: `start()` succeeds exactly from INITIALIZING, `pause()` exactly from
ACTIVE, `resume()` exactly from PAUSED; every invalid transition fails with
a state-transition error carrying the current and requested states while the
whole session state (log and turn counter included) is returned unchanged;
and a second `start()` after a successful one fails. -/
theorem C2_lifecycle_transitions (s : Salon) :
    ((s.start).2 = none ↔ s.state = SalonState.initializing) ∧
    ((s.pause).2 = none ↔ s.state = SalonState.active) ∧
    ((s.resume).2 = none ↔ s.state = SalonState.paused) ∧
    (s.state ≠ SalonState.initializing →
      s.start = (s, some (SalonError.stateTransition s.state SalonState.active))) ∧
    (s.state ≠ SalonState.active →
      s.pause = (s, some (SalonError.stateTransition s.state SalonState.paused))) ∧
    (s.state ≠ SalonState.paused →
      s.resume = (s, some (SalonError.stateTransition s.state SalonState.active))) ∧
    (s.state = SalonState.initializing →
      (s.start).1.state = SalonState.active ∧
        ∃ e, (((s.start).1).start).2 = some e) := by
  refine ⟨?_, ?_, ?_, ?_, ?_, ?_, ?_⟩
  · by_cases h : s.state = SalonState.initializing <;> simp [Salon.start, h]
  · by_cases h : s.state = SalonState.active <;> simp [Salon.pause, h]
  · by_cases h : s.state = SalonState.paused <;> simp [Salon.resume, h]
  · intro h; simp [Salon.start, h]
  · intro h; simp [Salon.pause, h]
  · intro h; simp [Salon.resume, h]
  · intro h; simp [Salon.start, h]

/-- Witness for C2 at a concrete session: `pause()` from INITIALIZING fails
with the transition error, and a second `start()` after a successful one
fails as well. -/
theorem C2_lifecycle_transitions_witness :
    ((Salon.init ["p1", "p2"]).pause).2 =
      some (SalonError.stateTransition SalonState.initializing SalonState.paused) ∧
    ∃ e, ((((Salon.init ["p1", "p2"]).start).1).start).2 = some e := by
  have h := C2_lifecycle_transitions (Salon.init ["p1", "p2"])
  refine ⟨?_, (h.2.2.2.2.2.2 (by decide)).2⟩
  have hp := h.2.2.2.2.1 (by decide)
  exact congrArg Prod.snd hp

/-- C3: `add_message` rejects a participant outside the fixed roster with an
unknown-participant error and no state change; otherwise it appends exactly
one message stamped with the current turn counter, bumps that participant's
turn count by one and character total by the content length, leaves every
other participant's stats and all other session fields unchanged, and
returns the stored message. -/
theorem C3_add_message (s : Salon) (pid content : String)
    (md : List (String × String)) (newId : String) (now : Nat) :
    (pid ∉ s.participants →
      s.addMessage pid content md newId now =
        (s, Except.error (SalonError.unknownParticipant pid))) ∧
    (pid ∈ s.participants →
      ∃ m,
        (s.addMessage pid content md newId now).2 = Except.ok m ∧
        (s.addMessage pid content md newId now).1.messages = s.messages ++ [m] ∧
        m.turnNumber = s.currentTurn ∧
        m.participantId = pid ∧
        m.content = content ∧
        m.id = newId ∧
        m.timestamp = now ∧
        (s.addMessage pid content md newId now).1.stats pid =
          { turnCount := (s.stats pid).turnCount + 1
            totalCharacters := (s.stats pid).totalCharacters + content.length
            lastMessageAt := some now } ∧
        (∀ q, q ≠ pid →
          (s.addMessage pid content md newId now).1.stats q = s.stats q) ∧
        (s.addMessage pid content md newId now).1.state = s.state ∧
        (s.addMessage pid content md newId now).1.currentTurn = s.currentTurn ∧
        (s.addMessage pid content md newId now).1.participants = s.participants) := by
  constructor
  · intro h
    simp [Salon.addMessage, h]
  · intro h
    refine ⟨{ id := newId, participantId := pid, content := content,
              timestamp := now, turnNumber := s.currentTurn, metadata := md },
      ?_, ?_, rfl, rfl, rfl, rfl, rfl, ?_, ?_, ?_, ?_, ?_⟩
    · simp [Salon.addMessage, h]
    · simp [Salon.addMessage, h]
    · simp [Salon.addMessage, h]
    · intro q hq
      simp [Salon.addMessage, h, hq]
    · simp [Salon.addMessage, h]
    · simp [Salon.addMessage, h]
    · simp [Salon.addMessage, h]

/-- Witness for C3 at a concrete session: a message from an unknown
participant is rejected, and a message from `p1` lands in the log with the
current turn number and updated stats. -/
theorem C3_add_message_witness :
    ((Salon.init ["p1", "p2"]).addMessage "intruder" "hi" [] "id0" 7).2 =
      Except.error (SalonError.unknownParticipant "intruder") ∧
    ∃ m,
      ((Salon.init ["p1", "p2"]).addMessage "p1" "hello" [] "id1" 9).2 =
        Except.ok m ∧
      m.turnNumber = 0 ∧
      ((Salon.init ["p1", "p2"]).addMessage "p1" "hello" [] "id1" 9).1.stats "p1" =
        { turnCount := 1, totalCharacters := 5, lastMessageAt := some 9 } := by
  constructor
  · have h := (C3_add_message (Salon.init ["p1", "p2"]) "intruder" "hi" [] "id0" 7).1
      (by decide)
    exact congrArg Prod.snd h
  · obtain ⟨m, h₁, _, h₃, _, _, _, _, h₈, _⟩ :=
      (C3_add_message (Salon.init ["p1", "p2"]) "p1" "hello" [] "id1" 9).2
        (by decide)
    exact ⟨m, h₁, h₃, by simpa [Salon.init] using h₈⟩

/-- A state that differs only in lifecycle-level fields (same log, same turn
counter) inherits the log invariant and extends the log by nothing. -/
theorem logInvariant_of_eq (s x : Salon)
    (hm : x.messages = s.messages) (hc : x.currentTurn = s.currentTurn)
    (h : s.logInvariant) :
    x.logInvariant ∧ ∃ t, x.messages = s.messages ++ t := by
  unfold Salon.logInvariant at h ⊢
  rw [hm, hc]
  exact ⟨h, ⟨[], by simp⟩⟩

/-- Every single `SalonManager` operation preserves the log invariant and
only ever appends to the message log. -/
theorem applyOp_logInvariant (s : Salon) (op : SalonOp) (h : s.logInvariant) :
    (s.applyOp op).logInvariant ∧
      ∃ t, (s.applyOp op).messages = s.messages ++ t := by
  obtain ⟨h₁, h₂⟩ := h
  cases op with
  | start =>
      refine logInvariant_of_eq s _ ?_ ?_ ⟨h₁, h₂⟩
      · show (s.start).1.messages = s.messages
        unfold Salon.start
        split <;> rfl
      · show (s.start).1.currentTurn = s.currentTurn
        unfold Salon.start
        split <;> rfl
  | pause =>
      refine logInvariant_of_eq s _ ?_ ?_ ⟨h₁, h₂⟩
      · show (s.pause).1.messages = s.messages
        unfold Salon.pause
        split <;> rfl
      · show (s.pause).1.currentTurn = s.currentTurn
        unfold Salon.pause
        split <;> rfl
  | resume =>
      refine logInvariant_of_eq s _ ?_ ?_ ⟨h₁, h₂⟩
      · show (s.resume).1.messages = s.messages
        unfold Salon.resume
        split <;> rfl
      · show (s.resume).1.currentTurn = s.currentTurn
        unfold Salon.resume
        split <;> rfl
  | complete =>
      exact logInvariant_of_eq s _ rfl rfl ⟨h₁, h₂⟩
  | advanceTurn =>
      refine ⟨⟨fun m hm => ?_, h₂⟩, ⟨[], by simp [Salon.applyOp, Salon.advanceTurn]⟩⟩
      exact le_trans (h₁ m hm) (Nat.le_succ _)
  | addMessage pid content md newId now =>
      by_cases hp : pid ∈ s.participants
      · simp only [Salon.applyOp, Salon.addMessage, hp, not_true_eq_false,
          if_false]
        refine ⟨⟨fun m hm => ?_, ?_⟩, ⟨_, rfl⟩⟩
        · rcases List.mem_append.1 hm with hm | hm
          · exact h₁ m hm
          · rcases List.mem_singleton.1 hm with rfl
            exact le_refl _
        · refine List.pairwise_append.2 ⟨h₂, List.pairwise_singleton _ _, ?_⟩
          intro a ha b hb
          rcases List.mem_singleton.1 hb with rfl
          exact h₁ a ha
      · simp only [Salon.applyOp, Salon.addMessage, hp, not_false_eq_true,
          if_true]
        exact ⟨⟨h₁, h₂⟩, ⟨[], by simp⟩⟩

/-- C9: over every sequence of SalonManager operations the message log is
append-only, every logged turn number stays bounded by the turn counter,
and turn numbers are pairwise non-decreasing along the log (in particular
between any earlier-appended and later-appended message). -/
theorem C9_log_append_only (s : Salon) (ops : List SalonOp)
    (h : s.logInvariant) :
    (s.runOps ops).logInvariant ∧
      ∃ t, (s.runOps ops).messages = s.messages ++ t := by
  induction ops generalizing s with
  | nil => exact ⟨h, ⟨[], by simp [Salon.runOps]⟩⟩
  | cons op ops ih =>
      obtain ⟨hinv, t₁, ht₁⟩ := applyOp_logInvariant s op h
      obtain ⟨hinv', t₂, ht₂⟩ := ih _ hinv
      refine ⟨hinv', ⟨t₁ ++ t₂, ?_⟩⟩
      show ((s.applyOp op).runOps ops).messages = _
      rw [ht₂, ht₁, List.append_assoc]

/-- Witness for C9 on a concrete session and operation sequence (a start,
two messages, a turn advance and a lifecycle change). -/
theorem C9_log_append_only_witness :
    ((Salon.init ["p1"]).runOps
        [SalonOp.start, SalonOp.addMessage "p1" "hello" [] "id1" 3,
         SalonOp.advanceTurn, SalonOp.addMessage "p1" "again" [] "id2" 4,
         SalonOp.complete]).logInvariant ∧
      ∃ t, ((Salon.init ["p1"]).runOps
        [SalonOp.start, SalonOp.addMessage "p1" "hello" [] "id1" 3,
         SalonOp.advanceTurn, SalonOp.addMessage "p1" "again" [] "id2" 4,
         SalonOp.complete]).messages = (Salon.init ["p1"]).messages ++ t := by
  exact C9_log_append_only (Salon.init ["p1"]) _
    ⟨by simp [Salon.init], by simp [Salon.init]⟩

/-- Full behaviour of the tool loop: the trace of backend responses is
non-empty and bounded by `remaining + 1`, the iteration counter counts
exactly the backend calls, the final response is the last trace entry, the
stop reason is the backend's when the final response carries no tool calls
and `"tool_iteration_limit"` otherwise (in which case the cap was consumed
exactly), and the executed tool records come from every response except the
final one. -/
theorem runLoop_spec (backend : List LLMMessage → LLMResult)
    (registry : ToolRegistry) :
    ∀ (remaining : Nat) (history : List LLMMessage)
      (execs : List ToolExecutionRecord) (iterations : Nat)
      (r : RuntimeResult) (tr : List LLMResult),
      runLoop backend registry remaining history execs iterations = (r, tr) →
      tr ≠ [] ∧
      tr.length ≤ remaining + 1 ∧
      r.iterations = iterations + tr.length ∧
      tr.getLast? = some r.response ∧
      (r.response.toolCalls = [] → r.stopReason = r.response.stopReason) ∧
      (r.response.toolCalls ≠ [] →
        r.stopReason = some "tool_iteration_limit" ∧ tr.length = remaining + 1) ∧
      r.toolExecutions = execs ++
        (tr.dropLast.map
          (fun resp => resp.toolCalls.map (executeTool registry))).flatten := by
  intro remaining
  induction remaining with
  | zero =>
      intro history execs iterations r tr h
      simp only [runLoop] at h
      by_cases htc : (backend history).toolCalls = []
      · rw [if_pos htc] at h
        cases h
        refine ⟨by simp, by simp, by simp, rfl, fun _ => rfl,
          fun h' => absurd htc h', by simp⟩
      · rw [if_neg htc] at h
        cases h
        exact ⟨by simp, by simp, by simp, rfl, fun h' => absurd h' htc,
          fun _ => ⟨rfl, by simp⟩, by simp⟩
  | succ n ih =>
      intro history execs iterations r tr h
      simp only [runLoop] at h
      by_cases htc : (backend history).toolCalls = []
      · rw [if_pos htc] at h
        cases h
        refine ⟨by simp, by simp, by simp, rfl, fun _ => rfl,
          fun h' => absurd htc h', by simp⟩
      · rw [if_neg htc] at h
        cases h
        obtain ⟨hne, hlen, hiter, hlast, hstop, hlimit, hexec⟩ :=
          ih ((history ++ [assistantMessageFromResult (backend history)]) ++
              (backend history).toolCalls.map (fun call =>
                { role := "user"
                  content := MsgContent.blocks
                    [toolResultBlock call.id (executeTool registry call).result] }))
            (execs ++ (backend history).toolCalls.map (executeTool registry))
            (iterations + 1) _ _ rfl
        refine ⟨by simp, ?_, ?_, ?_, hstop, ?_, ?_⟩
        · simp only [List.length_cons]
          omega
        · rw [hiter]
          simp only [List.length_cons]
          omega
        · rcases hcons : (runLoop backend registry n
              ((history ++ [assistantMessageFromResult (backend history)]) ++
                (backend history).toolCalls.map (fun call =>
                  { role := "user"
                    content := MsgContent.blocks
                      [toolResultBlock call.id (executeTool registry call).result] }))
              (execs ++ (backend history).toolCalls.map (executeTool registry))
              (iterations + 1)).2 with _ | ⟨b, bs⟩
          · exact absurd hcons hne
          · rw [hcons, List.getLast?_cons_cons, ← hcons]
            exact hlast
        · intro h'
          refine ⟨(hlimit h').1, ?_⟩
          rw [List.length_cons, (hlimit h').2]
        · rw [hexec]
          rcases hcons : (runLoop backend registry n
              ((history ++ [assistantMessageFromResult (backend history)]) ++
                (backend history).toolCalls.map (fun call =>
                  { role := "user"
                    content := MsgContent.blocks
                      [toolResultBlock call.id (executeTool registry call).result] }))
              (execs ++ (backend history).toolCalls.map (executeTool registry))
              (iterations + 1)).2 with _ | ⟨b, bs⟩
          · exact absurd hcons hne
          · rw [hcons, List.dropLast_cons₂, List.map_cons, List.flatten_cons]
            simp [List.append_assoc]

/-- C4: for every non-empty starting conversation, `run` makes at most
`max(1, cap)` backend calls (the returned trace lists one response per
call); when the final response carries no tool calls the loop ends with the
backend's stop reason, and otherwise it ends with
`stop_reason = "tool_iteration_limit"` having consumed the cap exactly and
executed only the tool calls of the earlier responses — never the pending
ones of the final response. -/
theorem C4_bounded_tool_loop (backend : List LLMMessage → LLMResult)
    (registry : ToolRegistry) (system : Option String) (limit : Int)
    (conversation : List LLMMessage) (h : conversation ≠ []) :
    ∃ r trace,
      runRuntime backend registry system limit conversation =
        (Except.ok r, trace) ∧
      r.iterations = trace.length ∧
      trace.length ≤ (max 1 limit).toNat ∧
      trace.getLast? = some r.response ∧
      (r.response.toolCalls = [] → r.stopReason = r.response.stopReason) ∧
      (r.response.toolCalls ≠ [] →
        r.stopReason = some "tool_iteration_limit" ∧
        trace.length = (max 1 limit).toNat ∧
        r.toolExecutions.length =
          (trace.dropLast.map (fun resp => resp.toolCalls.length)).sum) := by
  have hcap : (limit - 1).toNat + 1 = (max 1 limit).toNat := by omega
  have hrun : runRuntime backend registry system limit conversation =
      (Except.ok (runLoop backend registry (limit - 1).toNat
        (initialHistory system conversation) [] 0).1,
       (runLoop backend registry (limit - 1).toNat
        (initialHistory system conversation) [] 0).2) := by
    unfold runRuntime
    rw [if_neg h]
  obtain ⟨hne, hlen, hiter, hlast, hstop, hlimit, hexec⟩ :=
    runLoop_spec backend registry (limit - 1).toNat
      (initialHistory system conversation) [] 0 _ _ rfl
  refine ⟨_, _, hrun, ?_, ?_, hlast, hstop, ?_⟩
  · rw [hiter]
    simp
  · rw [← hcap]
    exact hlen
  · intro h'
    obtain ⟨hs, hl⟩ := hlimit h'
    refine ⟨hs, by rw [hl, hcap], ?_⟩
    rw [hexec]
    simp only [List.nil_append, List.length_flatten, List.map_map]
    congr 1
    refine List.map_congr_left (fun resp _ => ?_)
    simp

/-- Witness for C4: a backend that always requests a tool call, run with an
iteration cap of 2, stops at the cap with the limit stop reason. -/
theorem C4_bounded_tool_loop_witness :
    ∃ r trace,
      runRuntime
        (fun _ => ({ toolCalls := [{ id := "c1", name := "foo" }],
                     stopReason := some "tool_use" } : LLMResult)) [] none 2
        [{ role := "user", content := MsgContent.str "hi" }] =
        (Except.ok r, trace) ∧
      r.iterations = trace.length ∧
      trace.length ≤ (max 1 (2 : Int)).toNat ∧
      trace.getLast? = some r.response ∧
      (r.response.toolCalls = [] → r.stopReason = r.response.stopReason) ∧
      (r.response.toolCalls ≠ [] →
        r.stopReason = some "tool_iteration_limit" ∧
        trace.length = (max 1 (2 : Int)).toNat ∧
        r.toolExecutions.length =
          (trace.dropLast.map (fun resp => resp.toolCalls.length)).sum) :=
  C4_bounded_tool_loop _ [] none 2 _ (by simp)

/-- C10: `run` on an empty conversation fails with the `ValueError`
message before any backend call (the response trace is empty), so every
successfully returned `RuntimeResult` arises from a non-empty
conversation. -/
theorem C10_empty_conversation (backend : List LLMMessage → LLMResult)
    (registry : ToolRegistry) (system : Option String) (limit : Int) :
    runRuntime backend registry system limit [] =
      (Except.error "Conversation history cannot be empty.", []) ∧
    ∀ (conv : List LLMMessage) (r : RuntimeResult) (trace : List LLMResult),
      runRuntime backend registry system limit conv = (Except.ok r, trace) →
      conv ≠ [] := by
  constructor
  · unfold runRuntime
    rw [if_pos rfl]
  · intro conv r trace hok hnil
    subst hnil
    simp [runRuntime] at hok

/-- Witness for C10: the error on the empty conversation, and part two
applied to a concrete successful run on a one-message conversation. -/
theorem C10_empty_conversation_witness :
    runRuntime (fun _ => ({ stopReason := some "end_turn" } : LLMResult))
      [] none 3 [] =
      (Except.error "Conversation history cannot be empty.", []) ∧
    ([{ role := "user", content := MsgContent.str "hi" }] :
      List LLMMessage) ≠ [] := by
  have h := C10_empty_conversation
    (fun _ => ({ stopReason := some "end_turn" } : LLMResult)) [] none 3
  refine ⟨h.1, h.2 [{ role := "user", content := MsgContent.str "hi" }]
    { response := { stopReason := some "end_turn" }
      history := [{ role := "user", content := MsgContent.str "hi" },
                  { role := "assistant", content := MsgContent.str "" }]
      toolExecutions := []
      iterations := 1
      stopReason := some "end_turn" }
    [{ stopReason := some "end_turn" }] (by rfl)⟩

set_option maxRecDepth 4000 in
/-- When every attempt in scope of the retry loop raises, the loop returns
the mock-fallback response: content prefixed by the fallback marker, empty
artifacts, `degraded = true`, `retries` = the index of the last attempt,
`attempt` = the number of attempts consumed, one warning string per failed
attempt, and the last error recorded as `meta.error`. -/
theorem sendLoop_all_fail (dispatch : Nat → Except String RouterResult)
    (latMs : Nat → Nat) (mockProfile : Option ProviderProfile)
    (provider model : String) (payload : RouterPayload)
    (resolvedModel : String) (errs : Nat → String) :
    ∀ (remaining attempt : Nat) (errors : List String),
      (∀ k, attempt ≤ k → k ≤ attempt + remaining →
        dispatch k = Except.error (errs k)) →
      ∃ rest,
        (sendLoop dispatch latMs mockProfile provider model payload
            resolvedModel remaining attempt errors).content =
          "[mock-fallback " ++ rest ∧
        (sendLoop dispatch latMs mockProfile provider model payload
            resolvedModel remaining attempt errors).artifacts = [] ∧
        (sendLoop dispatch latMs mockProfile provider model payload
            resolvedModel remaining attempt errors).meta.degraded = some true ∧
        (sendLoop dispatch latMs mockProfile provider model payload
            resolvedModel remaining attempt errors).meta.retries =
          some (attempt + remaining) ∧
        (sendLoop dispatch latMs mockProfile provider model payload
            resolvedModel remaining attempt errors).meta.attempt =
          some (attempt + remaining + 1) ∧
        (sendLoop dispatch latMs mockProfile provider model payload
            resolvedModel remaining attempt errors).meta.warnings =
          some (errors ++ (List.range' attempt (remaining + 1)).map errs) ∧
        (sendLoop dispatch latMs mockProfile provider model payload
            resolvedModel remaining attempt errors).meta.errorMsg =
          some (errs (attempt + remaining)) := by
  intro remaining
  induction remaining with
  | zero =>
      intro attempt errors h
      have hd := h attempt le_rfl (by omega)
      simp only [sendLoop, hd]
      refine ⟨provider ++ ":" ++ model ++ "] Provider invocation failed: " ++
        errs attempt ++ ". Verify CLI OAuth/session for " ++ provider ++
        ". This turn ran in degraded mode.", ?_, ?_, ?_, ?_, ?_, ?_, ?_⟩
      · simp [invokeMock, List.getLastD_concat, String.append_assoc]
      · simp [invokeMock]
      · trivial
      · rfl
      · trivial
      · simp [List.range'_one]
      · simp [invokeMock, List.getLastD_concat]
  | succ n ih =>
      intro attempt errors h
      have hd := h attempt le_rfl (by omega)
      rw [sendLoop, hd]
      obtain ⟨rest, h1, h2, h3, h4, h5, h6, h7⟩ :=
        ih (attempt + 1) (errors ++ [errs attempt])
          (fun k hk1 hk2 => h k (by omega) (by omega))
      have harith : attempt + 1 + n = attempt + (n + 1) := by omega
      refine ⟨rest, h1, h2, h3, ?_, ?_, ?_, ?_⟩
      · exact h4.trans (by rw [harith])
      · exact h5.trans (by rw [harith])
      · rw [List.range'_succ, List.map_cons, List.append_cons]
        exact h6
      · exact h7.trans (by rw [harith])

/-- C1 (amended): `send_message` always returns a normalized
content/artifacts/meta response (it is total — the embedded counterpart of
"never raises"); when a profile resolves and every dispatch attempt raises,
after `max_retries + 1` attempts (the initial attempt plus up to
`max_retries` retries) it returns the mock-fallback response whose content
carries the fallback marker, with `meta.degraded = true`,
`meta.retries = max_retries`, `meta.attempt = max_retries + 1`, and one
recorded warning string per failed attempt. -/
theorem C1_router_mock_fallback
    (resolvedProfile mockProfile : Option ProviderProfile)
    (dispatch : Nat → Except String RouterResult) (latMs : Nat → Nat)
    (provider model : String) (payload : RouterPayload) (errs : Nat → String)
    (hsome : resolvedProfile.isSome = true)
    (hfail : ∀ k, k ≤ effectiveMaxRetries payload →
      dispatch k = Except.error (errs k)) :
    ∃ rest,
      (sendMessage resolvedProfile mockProfile dispatch latMs provider model
          payload).content = "[mock-fallback " ++ rest ∧
      (sendMessage resolvedProfile mockProfile dispatch latMs provider model
          payload).artifacts = [] ∧
      (sendMessage resolvedProfile mockProfile dispatch latMs provider model
          payload).meta.degraded = some true ∧
      (sendMessage resolvedProfile mockProfile dispatch latMs provider model
          payload).meta.retries = some (effectiveMaxRetries payload) ∧
      (sendMessage resolvedProfile mockProfile dispatch latMs provider model
          payload).meta.attempt = some (effectiveMaxRetries payload + 1) ∧
      (sendMessage resolvedProfile mockProfile dispatch latMs provider model
          payload).meta.warnings =
        some ((List.range (effectiveMaxRetries payload + 1)).map errs) := by
  obtain ⟨prof, rfl⟩ := Option.isSome_iff_exists.1 hsome
  simp only [sendMessage]
  obtain ⟨rest, h1, h2, h3, h4, h5, h6, h7⟩ :=
    sendLoop_all_fail dispatch latMs mockProfile provider model payload
      (resolveModelAlias provider model) errs (effectiveMaxRetries payload) 0
      [] (fun k hk1 hk2 => hfail k (by omega))
  refine ⟨rest, h1, h2, h3, by simpa using h4, by simpa using h5, ?_⟩
  rw [h6]
  simp [List.range_eq_range']

/-- Witness for C1 at a concrete always-throwing dispatch with
`max_retries = 1`. -/
theorem C1_router_mock_fallback_witness :
    ∃ rest,
      (sendMessage
          (some { id := "anthropic:default", provider := "anthropic",
                  authMode := AuthMode.cliOauth })
          (some { id := "mock:default", provider := "mock",
                  authMode := AuthMode.mock })
          (fun _ => Except.error "RuntimeError: boom") (fun _ => 42)
          "anthropic" "claude-sonnet"
          { options := some { maxRetries := some 1 } }).content =
        "[mock-fallback " ++ rest ∧
      (sendMessage
          (some { id := "anthropic:default", provider := "anthropic",
                  authMode := AuthMode.cliOauth })
          (some { id := "mock:default", provider := "mock",
                  authMode := AuthMode.mock })
          (fun _ => Except.error "RuntimeError: boom") (fun _ => 42)
          "anthropic" "claude-sonnet"
          { options := some { maxRetries := some 1 } }).artifacts = [] ∧
      (sendMessage
          (some { id := "anthropic:default", provider := "anthropic",
                  authMode := AuthMode.cliOauth })
          (some { id := "mock:default", provider := "mock",
                  authMode := AuthMode.mock })
          (fun _ => Except.error "RuntimeError: boom") (fun _ => 42)
          "anthropic" "claude-sonnet"
          { options := some { maxRetries := some 1 } }).meta.degraded =
        some true ∧
      (sendMessage
          (some { id := "anthropic:default", provider := "anthropic",
                  authMode := AuthMode.cliOauth })
          (some { id := "mock:default", provider := "mock",
                  authMode := AuthMode.mock })
          (fun _ => Except.error "RuntimeError: boom") (fun _ => 42)
          "anthropic" "claude-sonnet"
          { options := some { maxRetries := some 1 } }).meta.retries =
        some (effectiveMaxRetries { options := some { maxRetries := some 1 } }) ∧
      (sendMessage
          (some { id := "anthropic:default", provider := "anthropic",
                  authMode := AuthMode.cliOauth })
          (some { id := "mock:default", provider := "mock",
                  authMode := AuthMode.mock })
          (fun _ => Except.error "RuntimeError: boom") (fun _ => 42)
          "anthropic" "claude-sonnet"
          { options := some { maxRetries := some 1 } }).meta.attempt =
        some (effectiveMaxRetries { options := some { maxRetries := some 1 } } + 1) ∧
      (sendMessage
          (some { id := "anthropic:default", provider := "anthropic",
                  authMode := AuthMode.cliOauth })
          (some { id := "mock:default", provider := "mock",
                  authMode := AuthMode.mock })
          (fun _ => Except.error "RuntimeError: boom") (fun _ => 42)
          "anthropic" "claude-sonnet"
          { options := some { maxRetries := some 1 } }).meta.warnings =
        some ((List.range
          (effectiveMaxRetries { options := some { maxRetries := some 1 } } + 1)).map
            (fun _ => "RuntimeError: boom")) :=
  C1_router_mock_fallback
    (some { id := "anthropic:default", provider := "anthropic",
            authMode := AuthMode.cliOauth })
    (some { id := "mock:default", provider := "mock",
            authMode := AuthMode.mock })
    (fun _ => Except.error "RuntimeError: boom") (fun _ => 42)
    "anthropic" "claude-sonnet"
    { options := some { maxRetries := some 1 } }
    (fun _ => "RuntimeError: boom") rfl (fun _ _ => rfl)

/-- Counterexample for C1 as stated: with `max_retries = 1` and an
always-throwing dispatch, the router consumes 2 attempts
(`meta.attempt = 2`, two warning strings), not `max_retries = 1` attempts —
the failure path exhausts `max_retries + 1` attempts. -/
theorem C1_router_attempt_count_counterexample :
    effectiveMaxRetries { options := some { maxRetries := some 1 } } = 1 ∧
    (sendMessage
        (some { id := "anthropic:default", provider := "anthropic",
                authMode := AuthMode.cliOauth })
        (some { id := "mock:default", provider := "mock",
                authMode := AuthMode.mock })
        (fun _ => Except.error "RuntimeError: boom") (fun _ => 42)
        "anthropic" "claude-sonnet"
        { options := some { maxRetries := some 1 } }).meta.attempt = some 2 ∧
    (sendMessage
        (some { id := "anthropic:default", provider := "anthropic",
                authMode := AuthMode.cliOauth })
        (some { id := "mock:default", provider := "mock",
                authMode := AuthMode.mock })
        (fun _ => Except.error "RuntimeError: boom") (fun _ => 42)
        "anthropic" "claude-sonnet"
        { options := some { maxRetries := some 1 } }).meta.warnings =
      some ["RuntimeError: boom", "RuntimeError: boom"] ∧
    (2 : Nat) ≠ 1 := by
  refine ⟨rfl, ?_, ?_, by decide⟩ <;> rfl

/-- C8 (amended): `set_priority` fails with a `ValueError` for a participant
outside the roster and then leaves the whole coordinator state unchanged
(and succeeds, updating only that participant's score, otherwise), while
`setup_debate` performs no membership validation at all: it unconditionally
replaces the two side lists, never errors, and leaves every other
coordinator field unchanged. -/
theorem C8_membership_validation (c : Coordinator) (pid : String) (pr : Rat)
    (sideA sideB : List String) :
    (pid ∉ c.participants →
      c.setPriority pid pr =
        (c, some ("Participant " ++ pid ++ " not in salon"))) ∧
    (pid ∈ c.participants →
      (c.setPriority pid pr).2 = none ∧
      (c.setPriority pid pr).1.priorities pid = pr ∧
      (∀ q, q ≠ pid → (c.setPriority pid pr).1.priorities q = c.priorities q) ∧
      (c.setPriority pid pr).1.participants = c.participants ∧
      (c.setPriority pid pr).1.counts = c.counts ∧
      (c.setPriority pid pr).1.turnHistory = c.turnHistory ∧
      (c.setPriority pid pr).1.debateSideA = c.debateSideA ∧
      (c.setPriority pid pr).1.debateSideB = c.debateSideB) ∧
    ((c.setupDebate sideA sideB).2 = none ∧
      (c.setupDebate sideA sideB).1.debateSideA = sideA ∧
      (c.setupDebate sideA sideB).1.debateSideB = sideB ∧
      (c.setupDebate sideA sideB).1.participants = c.participants ∧
      (c.setupDebate sideA sideB).1.counts = c.counts ∧
      (c.setupDebate sideA sideB).1.turnHistory = c.turnHistory ∧
      (c.setupDebate sideA sideB).1.priorities = c.priorities) := by
  refine ⟨?_, ?_, ?_⟩
  · intro h
    simp [Coordinator.setPriority, h]
  · intro h
    refine ⟨?_, ?_, ?_, ?_, ?_, ?_, ?_, ?_⟩ <;>
      simp [Coordinator.setPriority, h]
    intro q hq
    simp [hq]
  · exact ⟨rfl, rfl, rfl, rfl, rfl, rfl, rfl⟩

/-- Counterexample for C8 as stated: `setup_debate` with the non-member
`"X"` on side A does not raise — it returns no error and installs the
invalid side list. -/
theorem C8_setup_debate_counterexample :
    ("X" ∈ (Coordinator.init ["A", "B"] TurnStrategy.debate none).participants
        → False) ∧
    ((Coordinator.init ["A", "B"] TurnStrategy.debate none).setupDebate
        ["X"] ["B"]).2 = none ∧
    ((Coordinator.init ["A", "B"] TurnStrategy.debate none).setupDebate
        ["X"] ["B"]).1.debateSideA = ["X"] := by
  exact ⟨by decide, rfl, rfl⟩

/-- Witness for C8 at a concrete coordinator: `set_priority` on a
non-member errors with the state returned unchanged, and on a member
updates only that score. -/
theorem C8_membership_validation_witness :
    ((Coordinator.init ["A", "B"] TurnStrategy.priority none).setPriority
        "X" 2 =
      (Coordinator.init ["A", "B"] TurnStrategy.priority none,
        some ("Participant " ++ "X" ++ " not in salon"))) ∧
    ((Coordinator.init ["A", "B"] TurnStrategy.priority none).setPriority
        "A" 2).2 = none ∧
    ((Coordinator.init ["A", "B"] TurnStrategy.priority none).setPriority
        "A" 2).1.priorities "A" = 2 := by
  have h₁ := C8_membership_validation
    (Coordinator.init ["A", "B"] TurnStrategy.priority none) "X" 2 [] []
  have h₂ := C8_membership_validation
    (Coordinator.init ["A", "B"] TurnStrategy.priority none) "A" 2 [] []
  exact ⟨h₁.1 (by decide), (h₂.2.1 (by decide)).1, (h₂.2.1 (by decide)).2.1⟩

/-- Running `n + 1` turns is one `get_next_turn` after running `n` turns. -/
theorem runTurns_succ (rand : Nat → Rat) (ridx : Nat → Nat)
    (c : Coordinator) (n : Nat) :
    Coordinator.runTurns rand ridx c (n + 1) =
      ((Coordinator.runTurns rand ridx c n).getNextTurn
        (rand (Coordinator.runTurns rand ridx c n).turnCount)
        (ridx (Coordinator.runTurns rand ridx c n).turnCount)).2 := by
  induction n generalizing c with
  | zero => rfl
  | succ n ih =>
      show Coordinator.runTurns rand ridx
        (c.getNextTurn (rand c.turnCount) (ridx c.turnCount)).2 (n + 1) = _
      rw [ih]
      rfl

/-- One `get_next_turn` step under the round-robin strategy: the speaker is
the participant at the cyclic index, the index advances modulo the roster
size, and the turn is recorded. -/
theorem getNextTurn_roundRobin_step (c : Coordinator)
    (hstrat : c.strategy = TurnStrategy.roundRobin) (r : Rat) (i : Nat) :
    (c.getNextTurn r i).2.participants = c.participants ∧
    (c.getNextTurn r i).2.strategy = TurnStrategy.roundRobin ∧
    (c.getNextTurn r i).2.rrIndex =
      (c.rrIndex + 1) % c.participants.length ∧
    (c.getNextTurn r i).2.turnCount = c.turnCount + 1 ∧
    (c.getNextTurn r i).2.turnHistory = c.turnHistory ++
      [{ participantId := c.participants.getD c.rrIndex ""
         turnNumber := c.turnCount
         strategy := TurnStrategy.roundRobin }] ∧
    (∀ p, (c.getNextTurn r i).2.counts p =
      if p = c.participants.getD c.rrIndex "" then c.counts p + 1
      else c.counts p) ∧
    (c.getNextTurn r i).1 =
      { participantId := c.participants.getD c.rrIndex ""
        turnNumber := c.turnCount
        strategy := TurnStrategy.roundRobin } := by
  refine ⟨?_, ?_, ?_, ?_, ?_, fun p => ?_, ?_⟩ <;>
    simp [Coordinator.getNextTurn, hstrat, Coordinator.nextRoundRobin,
      Coordinator.recordTurn]

/-- State reached after `n` round-robin turns from a fresh coordinator: the
cyclic index is `n % len`, the counter is `n`, the history lists turn `j`
assigned to participant `j % len`, and each participant's count is the
number of past turns that landed on it. -/
theorem runTurns_roundRobin_state (ps : List String)
    (rand : Nat → Rat) (ridx : Nat → Nat) (n : Nat) :
    (Coordinator.runTurns rand ridx
        (Coordinator.init ps TurnStrategy.roundRobin none) n).participants =
      ps ∧
    (Coordinator.runTurns rand ridx
        (Coordinator.init ps TurnStrategy.roundRobin none) n).strategy =
      TurnStrategy.roundRobin ∧
    (Coordinator.runTurns rand ridx
        (Coordinator.init ps TurnStrategy.roundRobin none) n).rrIndex =
      n % ps.length ∧
    (Coordinator.runTurns rand ridx
        (Coordinator.init ps TurnStrategy.roundRobin none) n).turnCount = n ∧
    (Coordinator.runTurns rand ridx
        (Coordinator.init ps TurnStrategy.roundRobin none) n).turnHistory =
      (List.range n).map (fun j =>
        { participantId := ps.getD (j % ps.length) ""
          turnNumber := j
          strategy := TurnStrategy.roundRobin }) ∧
    ∀ p, (Coordinator.runTurns rand ridx
        (Coordinator.init ps TurnStrategy.roundRobin none) n).counts p =
      ((List.range n).filter
        (fun j => ps.getD (j % ps.length) "" = p)).length := by
  induction n with
  | zero =>
      exact ⟨rfl, rfl, by simp [Coordinator.runTurns, Coordinator.init],
        rfl, by simp [Coordinator.runTurns, Coordinator.init],
        fun p => by simp [Coordinator.runTurns, Coordinator.init]⟩
  | succ n ih =>
      obtain ⟨hparts, hstrat, hrr, htc, hhist, hcounts⟩ := ih
      obtain ⟨sp, ss, srr, stc, shist, scounts, _⟩ :=
        getNextTurn_roundRobin_step
          (Coordinator.runTurns rand ridx
            (Coordinator.init ps TurnStrategy.roundRobin none) n) hstrat
          (rand (Coordinator.runTurns rand ridx
            (Coordinator.init ps TurnStrategy.roundRobin none) n).turnCount)
          (ridx (Coordinator.runTurns rand ridx
            (Coordinator.init ps TurnStrategy.roundRobin none) n).turnCount)
      rw [runTurns_succ rand ridx _ n]
      refine ⟨sp.trans hparts, ss, ?_, ?_, ?_, ?_⟩
      · rw [srr, hrr, hparts]
        exact Nat.mod_add_mod n ps.length 1
      · rw [stc, htc]
      · rw [shist, hhist, hrr, hparts, htc, List.range_succ, List.map_append]
        simp
      · intro p
        rw [scounts p, hrr, hparts, hcounts p, List.range_succ,
          List.filter_append, List.length_append]
        by_cases hp : p = ps.getD (n % ps.length) ""
        · have hd : decide (ps.getD (n % ps.length) "" = p) = true := by
            simpa using hp.symm
          rw [if_pos hp, List.filter_singleton, hd]
          simp
        · have hd : decide (ps.getD (n % ps.length) "" = p) = false := by
            simpa using Ne.symm hp
          rw [if_neg hp, List.filter_singleton, hd]
          simp

/-- C6: under round-robin from a fresh coordinator, the `i`-th
`get_next_turn` call (counting from 0) picks the participant at index
`i % n`, whatever the randomness oracles; with participants `[A, B, C]`,
after 9 turns each turn count is 3 and the reported fairness variance (the
population variance of the per-participant counts) is 0. -/
theorem C6_round_robin (ps : List String)
    (rand : Nat → Rat) (ridx : Nat → Nat) (n i : Nat) (hin : i < n) :
    ((Coordinator.runTurns rand ridx
        (Coordinator.init ps TurnStrategy.roundRobin none) n).turnHistory.getD
        i { participantId := "", turnNumber := 0,
            strategy := TurnStrategy.roundRobin }).participantId =
      ps.getD (i % ps.length) "" ∧
    (Coordinator.runTurns rand ridx
        (Coordinator.init ["A", "B", "C"] TurnStrategy.roundRobin none)
        9).getTurnStatistics.participantTurnCounts =
      [("A", 3), ("B", 3), ("C", 3)] ∧
    (Coordinator.runTurns rand ridx
        (Coordinator.init ["A", "B", "C"] TurnStrategy.roundRobin none)
        9).getTurnStatistics.fairnessVariance = 0 := by
  obtain ⟨_, _, _, _, hhist, _⟩ := runTurns_roundRobin_state ps rand ridx n
  obtain ⟨hparts₉, _, _, _, _, hcounts₉⟩ :=
    runTurns_roundRobin_state ["A", "B", "C"] rand ridx 9
  have hA : (Coordinator.runTurns rand ridx
      (Coordinator.init ["A", "B", "C"] TurnStrategy.roundRobin none)
      9).counts "A" = 3 := (hcounts₉ "A").trans (by decide)
  have hB : (Coordinator.runTurns rand ridx
      (Coordinator.init ["A", "B", "C"] TurnStrategy.roundRobin none)
      9).counts "B" = 3 := (hcounts₉ "B").trans (by decide)
  have hC : (Coordinator.runTurns rand ridx
      (Coordinator.init ["A", "B", "C"] TurnStrategy.roundRobin none)
      9).counts "C" = 3 := (hcounts₉ "C").trans (by decide)
  refine ⟨?_, ?_, ?_⟩
  · rw [hhist]
    have hlen : i < ((List.range n).map (fun j =>
        ({ participantId := ps.getD (j % ps.length) ""
           turnNumber := j
           strategy := TurnStrategy.roundRobin } : Turn))).length := by
      simpa using hin
    rw [List.getD_eq_getElem _ _ hlen]
    simp
  · simp only [Coordinator.getTurnStatistics]
    rw [hparts₉]
    simp [hA, hB, hC]
  · simp only [Coordinator.getTurnStatistics, Coordinator.fairnessVariance]
    rw [hparts₉]
    simp [hA, hB, hC]
    norm_num

/-- Witness for C6: turn 4 of 9 from `[A, B, C]` goes to participant
`4 % 3 = 1`, i.e. `B`, and the 9-turn statistics are balanced. -/
theorem C6_round_robin_witness :
    ((Coordinator.runTurns (fun _ => 0) (fun _ => 0)
        (Coordinator.init ["A", "B", "C"] TurnStrategy.roundRobin none)
        9).turnHistory.getD 4
        { participantId := "", turnNumber := 0,
          strategy := TurnStrategy.roundRobin }).participantId =
      ["A", "B", "C"].getD (4 % 3) "" ∧
    (Coordinator.runTurns (fun _ => 0) (fun _ => 0)
        (Coordinator.init ["A", "B", "C"] TurnStrategy.roundRobin none)
        9).getTurnStatistics.participantTurnCounts =
      [("A", 3), ("B", 3), ("C", 3)] ∧
    (Coordinator.runTurns (fun _ => 0) (fun _ => 0)
        (Coordinator.init ["A", "B", "C"] TurnStrategy.roundRobin none)
        9).getTurnStatistics.fairnessVariance = 0 :=
  C6_round_robin ["A", "B", "C"] (fun _ => 0) (fun _ => 0) 9 4 (by decide)

/-- `min(side, key=counts)` picks the first element attaining the minimal
count: the list splits as `pre ++ chosen :: post` with every element of
`pre` strictly above the chosen count, and the chosen count minimal over
the whole list. -/
theorem leastUsed_spec (counts : String → Nat) (x : String)
    (xs : List String) :
    ∃ pre post, x :: xs = pre ++ leastUsed counts (x :: xs) :: post ∧
      (∀ p ∈ pre, counts (leastUsed counts (x :: xs)) < counts p) ∧
      (∀ p ∈ x :: xs, counts (leastUsed counts (x :: xs)) ≤ counts p) := by
  induction xs generalizing x with
  | nil =>
      refine ⟨[], [], rfl, by simp, ?_⟩
      intro p hp
      rcases List.mem_singleton.1 hp with rfl
      exact le_refl _
  | cons y t ih =>
      have hfold : leastUsed counts (x :: y :: t) =
          leastUsed counts ((if counts y < counts x then y else x) :: t) :=
        rfl
      by_cases hxy : counts y < counts x
      · obtain ⟨pre, post, hdec, hpre, hmin⟩ := ih y
        have hchosen : leastUsed counts (x :: y :: t) =
            leastUsed counts (y :: t) := by rw [hfold, if_pos hxy]
        rw [hchosen]
        refine ⟨x :: pre, post, ?_, ?_, ?_⟩
        · rw [List.cons_append, ← hdec]
        · intro p hp
          rcases List.mem_cons.1 hp with rfl | hp
          · exact lt_of_le_of_lt (hmin y (List.mem_cons_self y t)) hxy
          · exact hpre p hp
        · intro p hp
          rcases List.mem_cons.1 hp with rfl | hp
          · exact le_of_lt
              (lt_of_le_of_lt (hmin y (List.mem_cons_self y t)) hxy)
          · exact hmin p hp
      · obtain ⟨pre, post, hdec, hpre, hmin⟩ := ih x
        have hchosen : leastUsed counts (x :: y :: t) =
            leastUsed counts (x :: t) := by rw [hfold, if_neg hxy]
        rw [hchosen]
        cases pre with
        | nil =>
            rw [List.nil_append] at hdec
            have hx : x = leastUsed counts (x :: t) := (List.cons_eq_cons.1 hdec).1
            refine ⟨[], y :: t, ?_, by simp, ?_⟩
            · rw [List.nil_append, ← hx]
            · intro p hp
              rcases List.mem_cons.1 hp with rfl | hp
              · exact hmin p (List.mem_cons_self p t)
              · rcases List.mem_cons.1 hp with rfl | hp'
                · rw [← hx]
                  exact not_lt.1 hxy
                · exact hmin p (List.mem_cons_of_mem x hp')
        | cons a pre' =>
            rw [List.cons_append] at hdec
            obtain ⟨hax, ht⟩ := List.cons_eq_cons.1 hdec
            refine ⟨x :: y :: pre', post, ?_, ?_, ?_⟩
            · rw [List.cons_append, List.cons_append, ← ht]
            · intro p hp
              rcases List.mem_cons.1 hp with rfl | hp
              · have h' := hpre a (List.mem_cons_self a pre')
                rwa [← hax] at h'
              · rcases List.mem_cons.1 hp with rfl | hp'
                · refine lt_of_lt_of_le ?_ (not_lt.1 hxy)
                  have h' := hpre a (List.mem_cons_self a pre')
                  rwa [← hax] at h'
                · exact hpre p (List.mem_cons_of_mem a hp')
            · intro p hp
              rcases List.mem_cons.1 hp with rfl | hp
              · exact hmin p (List.mem_cons_self p t)
              · rcases List.mem_cons.1 hp with rfl | hp'
                · exact le_trans (hmin x (List.mem_cons_self x t))
                    (not_lt.1 hxy)
                · exact hmin p (List.mem_cons_of_mem x hp')

/-- One `get_next_turn` step under the debate strategy with two configured
non-empty sides: the speaker is the least-used member of side A when side
A's cumulative count is `≤` side B's, of side B otherwise; the turn is
recorded and the roster, strategy and sides are untouched. -/
theorem getNextTurn_debate_step (c : Coordinator)
    (hstrat : c.strategy = TurnStrategy.debate)
    (ha : c.debateSideA ≠ []) (hb : c.debateSideB ≠ []) (r : Rat) (i : Nat) :
    (c.getNextTurn r i).1.participantId =
      leastUsed c.counts
        (if c.sideTurns c.debateSideA ≤ c.sideTurns c.debateSideB
         then c.debateSideA else c.debateSideB) ∧
    (c.getNextTurn r i).2.participants = c.participants ∧
    (c.getNextTurn r i).2.strategy = c.strategy ∧
    (c.getNextTurn r i).2.debateSideA = c.debateSideA ∧
    (c.getNextTurn r i).2.debateSideB = c.debateSideB ∧
    (c.getNextTurn r i).2.turnCount = c.turnCount + 1 ∧
    (∀ p, (c.getNextTurn r i).2.counts p =
      if p = (c.getNextTurn r i).1.participantId then c.counts p + 1
      else c.counts p) := by
  refine ⟨?_, ?_, ?_, ?_, ?_, ?_, fun p => ?_⟩ <;>
    simp [Coordinator.getNextTurn, hstrat, Coordinator.nextDebate, ha, hb,
      Coordinator.recordTurn]

/-- The fresh debate coordinator with sides `[x, y]` and `[z]`. -/
def debatePair (ps : List String) (x y z : String) : Coordinator :=
  ((Coordinator.init ps TurnStrategy.debate none).setupDebate [x, y] [z]).1

/-- Invariant of the two-versus-one debate run from a fresh coordinator:
the side totals differ by at most one, with side A (which wins ties) ahead
by at most one. -/
theorem debatePair_invariant (ps : List String) (x y z : String)
    (hxy : x ≠ y) (hxz : x ≠ z) (hyz : y ≠ z)
    (rand : Nat → Rat) (ridx : Nat → Nat) (n : Nat) :
    (Coordinator.runTurns rand ridx (debatePair ps x y z) n).strategy =
      TurnStrategy.debate ∧
    (Coordinator.runTurns rand ridx (debatePair ps x y z) n).debateSideA =
      [x, y] ∧
    (Coordinator.runTurns rand ridx (debatePair ps x y z) n).debateSideB =
      [z] ∧
    (Coordinator.runTurns rand ridx (debatePair ps x y z) n).counts x +
        (Coordinator.runTurns rand ridx (debatePair ps x y z) n).counts y +
        (Coordinator.runTurns rand ridx (debatePair ps x y z) n).counts z =
      n ∧
    ((Coordinator.runTurns rand ridx (debatePair ps x y z) n).counts x +
        (Coordinator.runTurns rand ridx (debatePair ps x y z) n).counts y =
      (Coordinator.runTurns rand ridx (debatePair ps x y z) n).counts z ∨
     (Coordinator.runTurns rand ridx (debatePair ps x y z) n).counts x +
        (Coordinator.runTurns rand ridx (debatePair ps x y z) n).counts y =
      (Coordinator.runTurns rand ridx (debatePair ps x y z) n).counts z + 1) := by
  induction n with
  | zero =>
      exact ⟨rfl, rfl, rfl, rfl, Or.inl rfl⟩
  | succ n ih =>
      obtain ⟨hstrat, hsa, hsb, hsum, hbal⟩ := ih
      obtain ⟨hchosen, _, hstrat', hsa', hsb', _, hcounts'⟩ :=
        getNextTurn_debate_step
          (Coordinator.runTurns rand ridx (debatePair ps x y z) n) hstrat
          (by rw [hsa]; exact List.cons_ne_nil x [y])
          (by rw [hsb]; exact List.cons_ne_nil z [])
          (rand (Coordinator.runTurns rand ridx (debatePair ps x y z) n).turnCount)
          (ridx (Coordinator.runTurns rand ridx (debatePair ps x y z) n).turnCount)
      rw [runTurns_succ rand ridx _ n]
      rw [hsa, hsb] at hchosen
      have hsideA : (Coordinator.runTurns rand ridx (debatePair ps x y z)
          n).sideTurns [x, y] =
          (Coordinator.runTurns rand ridx (debatePair ps x y z) n).counts x +
            (Coordinator.runTurns rand ridx (debatePair ps x y z) n).counts y := by
        simp [Coordinator.sideTurns]
      have hsideB : (Coordinator.runTurns rand ridx (debatePair ps x y z)
          n).sideTurns [z] =
          (Coordinator.runTurns rand ridx (debatePair ps x y z) n).counts z := by
        simp [Coordinator.sideTurns]
      refine ⟨hstrat'.trans hstrat, hsa'.trans hsa, hsb'.trans hsb, ?_, ?_⟩ <;>
      · by_cases hle : (Coordinator.runTurns rand ridx (debatePair ps x y z)
            n).sideTurns [x, y] ≤
            (Coordinator.runTurns rand ridx (debatePair ps x y z) n).sideTurns [z]
        · rw [if_pos hle] at hchosen
          by_cases hyx : (Coordinator.runTurns rand ridx (debatePair ps x y z)
              n).counts y <
              (Coordinator.runTurns rand ridx (debatePair ps x y z) n).counts x
          · have hcy : ((Coordinator.runTurns rand ridx (debatePair ps x y z)
                n).getNextTurn
                (rand (Coordinator.runTurns rand ridx (debatePair ps x y z) n).turnCount)
                (ridx (Coordinator.runTurns rand ridx (debatePair ps x y z) n).turnCount)).1.participantId = y := by
              rw [hchosen]
              show (if _ then y else x) = y
              rw [if_pos hyx]
            rw [hcounts' x, hcounts' y, hcounts' z, hcy] at *
            rw [if_neg hxy, if_pos rfl, if_neg (Ne.symm hyz)]
            rw [hsideA, hsideB] at hle
            omega
          · have hcx : ((Coordinator.runTurns rand ridx (debatePair ps x y z)
                n).getNextTurn
                (rand (Coordinator.runTurns rand ridx (debatePair ps x y z) n).turnCount)
                (ridx (Coordinator.runTurns rand ridx (debatePair ps x y z) n).turnCount)).1.participantId = x := by
              rw [hchosen]
              show (if _ then y else x) = x
              rw [if_neg hyx]
            rw [hcounts' x, hcounts' y, hcounts' z, hcx] at *
            rw [if_pos rfl, if_neg (Ne.symm hxy), if_neg (Ne.symm hxz)]
            rw [hsideA, hsideB] at hle
            omega
        · rw [if_neg hle] at hchosen
          have hcz : ((Coordinator.runTurns rand ridx (debatePair ps x y z)
              n).getNextTurn
              (rand (Coordinator.runTurns rand ridx (debatePair ps x y z) n).turnCount)
              (ridx (Coordinator.runTurns rand ridx (debatePair ps x y z) n).turnCount)).1.participantId = z := by
            rw [hchosen]
            rfl
          rw [hcounts' x, hcounts' y, hcounts' z, hcz] at *
          rw [if_neg hxz, if_neg hyz, if_pos rfl]
          rw [hsideA, hsideB] at hle
          omega

/-- C7 (amended): under the debate strategy with two configured non-empty
sides whose members are all in the roster, `get_next_turn` selects, from
the side whose cumulative turn count is strictly fewer, the member with the
fewest turns so far (ties broken by list order); and for a fresh coordinator
with sides of size 2 and 1, after every `N ≥ 2` turns the 1-member side's
turn rate is at least the per-member rate of the 2-member side (at `N = 1`
the 2-member side holds the single turn, so the bound starts at `N = 2`). -/
theorem C7_debate_strategy (c : Coordinator)
    (hstrat : c.strategy = TurnStrategy.debate)
    (ha : c.debateSideA ≠ []) (hb : c.debateSideB ≠ []) (r : Rat) (i : Nat)
    (ps : List String) (x y z : String)
    (hxy : x ≠ y) (hxz : x ≠ z) (hyz : y ≠ z)
    (hxp : x ∈ ps) (hyp : y ∈ ps) (hzp : z ∈ ps)
    (rand : Nat → Rat) (ridx : Nat → Nat) (n : Nat) (hn : 2 ≤ n) :
    (c.sideTurns c.debateSideA < c.sideTurns c.debateSideB →
      ∃ pre post,
        c.debateSideA = pre ++ (c.getNextTurn r i).1.participantId :: post ∧
        (∀ p ∈ pre,
          c.counts (c.getNextTurn r i).1.participantId < c.counts p) ∧
        (∀ p ∈ c.debateSideA,
          c.counts (c.getNextTurn r i).1.participantId ≤ c.counts p)) ∧
    (c.sideTurns c.debateSideB < c.sideTurns c.debateSideA →
      ∃ pre post,
        c.debateSideB = pre ++ (c.getNextTurn r i).1.participantId :: post ∧
        (∀ p ∈ pre,
          c.counts (c.getNextTurn r i).1.participantId < c.counts p) ∧
        (∀ p ∈ c.debateSideB,
          c.counts (c.getNextTurn r i).1.participantId ≤ c.counts p)) ∧
    2 * (Coordinator.runTurns rand ridx (debatePair ps x y z) n).counts z ≥
      (Coordinator.runTurns rand ridx (debatePair ps x y z) n).counts x +
        (Coordinator.runTurns rand ridx (debatePair ps x y z) n).counts y ∧
    (((Coordinator.runTurns rand ridx (debatePair ps x y z) n).counts x +
        (Coordinator.runTurns rand ridx (debatePair ps x y z) n).counts y :
        Rat) / 2) / (n : Rat) ≤
      ((Coordinator.runTurns rand ridx (debatePair ps x y z) n).counts z :
        Rat) / (n : Rat) := by
  obtain ⟨hchosen, _⟩ := getNextTurn_debate_step c hstrat ha hb r i
  obtain ⟨_, _, _, hsum, hbal⟩ :=
    debatePair_invariant ps x y z hxy hxz hyz rand ridx n
  have hnat : 2 * (Coordinator.runTurns rand ridx (debatePair ps x y z)
      n).counts z ≥
      (Coordinator.runTurns rand ridx (debatePair ps x y z) n).counts x +
        (Coordinator.runTurns rand ridx (debatePair ps x y z) n).counts y := by
    omega
  refine ⟨?_, ?_, hnat, ?_⟩
  · intro hlt
    have hch := hchosen
    rw [if_pos (le_of_lt hlt)] at hch
    rcases hA : c.debateSideA with _ | ⟨a0, as⟩
    · exact absurd hA ha
    · rw [hA] at hch
      obtain ⟨pre, post, hdec, hpre, hmin⟩ := leastUsed_spec c.counts a0 as
      refine ⟨pre, post, ?_, ?_, ?_⟩
      · rw [hch]
        exact hdec
      · intro p hp
        rw [hch]
        exact hpre p hp
      · intro p hp
        rw [hch]
        exact hmin p hp
  · intro hlt
    have hch := hchosen
    rw [if_neg (not_le.2 hlt)] at hch
    rcases hB : c.debateSideB with _ | ⟨b0, bs⟩
    · exact absurd hB hb
    · rw [hB] at hch
      obtain ⟨pre, post, hdec, hpre, hmin⟩ := leastUsed_spec c.counts b0 bs
      refine ⟨pre, post, ?_, ?_, ?_⟩
      · rw [hch]
        exact hdec
      · intro p hp
        rw [hch]
        exact hpre p hp
      · intro p hp
        rw [hch]
        exact hmin p hp
  · have hn0 : (0 : Rat) < (n : Rat) := by
      have : 0 < n := by omega
      exact_mod_cast this
    rw [div_le_div_iff hn0 hn0]
    have h2 : (((Coordinator.runTurns rand ridx (debatePair ps x y z)
        n).counts x +
        (Coordinator.runTurns rand ridx (debatePair ps x y z) n).counts y :
        Rat)) / 2 ≤
        ((Coordinator.runTurns rand ridx (debatePair ps x y z) n).counts z :
          Rat) := by
      rw [div_le_iff (by norm_num : (0 : Rat) < 2)]
      exact_mod_cast (by omega :
        (Coordinator.runTurns rand ridx (debatePair ps x y z) n).counts x +
          (Coordinator.runTurns rand ridx (debatePair ps x y z) n).counts y ≤
        (Coordinator.runTurns rand ridx (debatePair ps x y z) n).counts z * 2)
    exact mul_le_mul_of_nonneg_right h2 (le_of_lt hn0)

/-- Counterexample to C7 as stated: at `N = 1` the single first turn goes
to the 2-member side (ties go to side A), so the 1-member side's rate `0`
is below the 2-member side's per-member rate `1/2`. -/
theorem C7_debate_rate_counterexample :
    (Coordinator.runTurns (fun _ => 0) (fun _ => 0)
        (debatePair ["A", "B", "C"] "A" "B" "C") 1).counts "C" = 0 ∧
    (Coordinator.runTurns (fun _ => 0) (fun _ => 0)
        (debatePair ["A", "B", "C"] "A" "B" "C") 1).counts "A" +
      (Coordinator.runTurns (fun _ => 0) (fun _ => 0)
        (debatePair ["A", "B", "C"] "A" "B" "C") 1).counts "B" = 1 ∧
    ¬((((Coordinator.runTurns (fun _ => 0) (fun _ => 0)
          (debatePair ["A", "B", "C"] "A" "B" "C") 1).counts "A" +
        (Coordinator.runTurns (fun _ => 0) (fun _ => 0)
          (debatePair ["A", "B", "C"] "A" "B" "C") 1).counts "B" :
        Rat) / 2) / ((1 : Nat) : Rat) ≤
      ((Coordinator.runTurns (fun _ => 0) (fun _ => 0)
          (debatePair ["A", "B", "C"] "A" "B" "C") 1).counts "C" :
        Rat) / ((1 : Nat) : Rat)) := by
  have hA : (Coordinator.runTurns (fun _ => 0) (fun _ => 0)
      (debatePair ["A", "B", "C"] "A" "B" "C") 1).counts "A" = 1 := rfl
  have hB : (Coordinator.runTurns (fun _ => 0) (fun _ => 0)
      (debatePair ["A", "B", "C"] "A" "B" "C") 1).counts "B" = 0 := rfl
  have hC : (Coordinator.runTurns (fun _ => 0) (fun _ => 0)
      (debatePair ["A", "B", "C"] "A" "B" "C") 1).counts "C" = 0 := rfl
  refine ⟨hC, ?_, ?_⟩
  · rw [hA, hB]
  · rw [hA, hB, hC]
    norm_num

/-- Witness for C7 at the concrete 2-versus-1 debate: after 2 turns the
single-member side has at least half the 2-member side's turns. -/
theorem C7_debate_strategy_witness :
    2 * (Coordinator.runTurns (fun _ => 0) (fun _ => 0)
        (debatePair ["A", "B", "C"] "A" "B" "C") 2).counts "C" ≥
      (Coordinator.runTurns (fun _ => 0) (fun _ => 0)
        (debatePair ["A", "B", "C"] "A" "B" "C") 2).counts "A" +
        (Coordinator.runTurns (fun _ => 0) (fun _ => 0)
          (debatePair ["A", "B", "C"] "A" "B" "C") 2).counts "B" :=
  (C7_debate_strategy (debatePair ["A", "B", "C"] "A" "B" "C") rfl
    (by decide) (by decide) 0 0 ["A", "B", "C"] "A" "B" "C"
    (by decide) (by decide) (by decide) (by decide) (by decide) (by decide)
    (fun _ => 0) (fun _ => 0) 2 (by decide)).2.2.1

/-- A statement's key terms are a subset of its own group terms (the group
side drops no stop words). -/
theorem keyTerms_subset_groupTerms (s : String) :
    keyTerms s ⊆ groupTerms s :=
  Finset.sdiff_subset

/-- Clustering a repeat of the group's own key statement joins that group:
the overlap of a statement with itself is 1 > 0.3 (provided it has at least
one key term). -/
theorem clusterStep_same (st participant : String) (S : Finset String)
    (h : (keyTerms st).card ≠ 0) :
    clusterStep [(st, S)] (participant, st) =
      [(st, insert participant S)] := by
  have hinter : keyTerms st ∩ groupTerms st = keyTerms st :=
    Finset.inter_eq_left.2 (keyTerms_subset_groupTerms st)
  have hmax : max (keyTerms st).card 1 = (keyTerms st).card :=
    max_eq_left (Nat.one_le_iff_ne_zero.2 h)
  have hratio : overlapRatio (keyTerms st) (groupTerms st) = 1 := by
    unfold overlapRatio
    rw [hinter, hmax]
    exact div_self (by exact_mod_cast h)
  have hgt : overlapRatio (keyTerms st) (groupTerms st) > 3 / 10 := by
    rw [hratio]
    norm_num
  simp [clusterStep, List.find?, hgt]

/-- The example's clustering: one group keyed by the shared statement,
supported by the three asserting participants. -/
theorem clusterStatements_example :
    clusterStatements examplePositions =
      [(exampleStatement, insert "p3" (insert "p2" {"p1"}))] := by
  have hcard : (keyTerms exampleStatement).card ≠ 0 := by decide
  have hall : allStatements examplePositions =
      [("p1", exampleStatement), ("p2", exampleStatement),
       ("p3", exampleStatement)] := by decide
  unfold clusterStatements
  rw [hall, List.foldl_cons, List.foldl_cons, List.foldl_cons,
    List.foldl_nil]
  have h0 : clusterStep [] ("p1", exampleStatement) =
      [(exampleStatement, {"p1"})] := by
    simp [clusterStep, setGroup]
  rw [h0, clusterStep_same _ _ _ hcard, clusterStep_same _ _ _ hcard]

/-- The implemented support cutoff at 5 participants and threshold 0.75:
`max(2, int(5 * 0.75)) = max(2, 3) = 3` (truncation). -/
theorem minSupport_example : minSupport 5 (3 / 4) = 3 := by
  unfold minSupport pyInt
  rw [if_neg (by push_cast; norm_num : ¬(((5 : Nat) : Rat) * (3 / 4) < 0))]
  rw [show ⌊((5 : Nat) : Rat) * (3 / 4)⌋ = 3 by push_cast; norm_num]
  rfl

/-- The specified (`round`) cutoff at the same parameters:
`max(2, round(5 * 0.75)) = max(2, 4) = 4`. -/
theorem roundSpec_example : roundSpec ((5 : Rat) * (3 / 4)) = 4 := by
  unfold roundSpec
  rw [show ⌊(5 : Rat) * (3 / 4)⌋ = 3 by norm_num]
  rw [if_neg (by norm_num), if_pos (by norm_num)]
  decide

/-- The example's full agreement detection: exactly one consensus point,
carried by 3 of 5 participants with confidence 3/5. -/
theorem detectAgreement_example :
    detectAgreement exampleParticipants (3 / 4) examplePositions =
      [{ statement := exampleStatement
         supportingParticipants := insert "p3" (insert "p2" {"p1"})
         confidence := 3 / 5 }] := by
  unfold detectAgreement
  rw [clusterStatements_example]
  rw [show exampleParticipants.length = 5 from rfl, minSupport_example]
  have hcard : (insert "p3" (insert "p2" ({"p1"} : Finset String))).card = 3 := by
    decide
  simp [hcard]

/-- C5 (amended): a cluster yields a `ConsensusPoint` iff its
distinct-supporter count is at least `max(2, int(n * threshold))` — Python
`int()` truncation, not `round()` — and each emitted point's confidence is
its supporter count divided by the participant count. -/
theorem C5_consensus_points (participants : List String) (threshold : Rat)
    (positions : List (String × List String)) :
    (∀ point, point ∈ detectAgreement participants threshold positions ↔
      ∃ g ∈ clusterStatements positions,
        minSupport participants.length threshold ≤ g.2.card ∧
        point = { statement := g.1
                  supportingParticipants := g.2
                  confidence :=
                    (g.2.card : Rat) / (participants.length : Rat) }) ∧
    ∀ point ∈ detectAgreement participants threshold positions,
      minSupport participants.length threshold ≤
        point.supportingParticipants.card ∧
      point.confidence =
        (point.supportingParticipants.card : Rat) /
          (participants.length : Rat) := by
  constructor
  · intro point
    simp only [detectAgreement, List.mem_map, List.mem_filter]
    constructor
    · rintro ⟨g, ⟨hg, hsup⟩, rfl⟩
      exact ⟨g, hg, by simpa using hsup, rfl⟩
    · rintro ⟨g, hg, hsup, rfl⟩
      exact ⟨g, ⟨hg, by simpa using hsup⟩, rfl⟩
  · intro point hp
    simp only [detectAgreement, List.mem_map, List.mem_filter] at hp
    obtain ⟨g, ⟨_, hsup⟩, rfl⟩ := hp
    exact ⟨by simpa using hsup, rfl⟩

/-- Counterexample for C5 as stated: at 5 participants and threshold 0.75
the code's cutoff is `int(3.75) = 3` while the claimed cutoff is
`round(3.75) = 4`; a cluster carried by exactly 3 supporters yields a
`ConsensusPoint` even though 3 is below the claimed bound. -/
theorem C5_min_support_counterexample :
    (detectAgreement exampleParticipants (3 / 4) examplePositions).map
        (fun p => p.supportingParticipants.card) = [3] ∧
    minSupport 5 (3 / 4) = 3 ∧
    max 2 (roundSpec ((5 : Rat) * (3 / 4))).toNat = 4 ∧
    ¬(max 2 (roundSpec ((5 : Rat) * (3 / 4))).toNat ≤ 3) := by
  have hcard : (insert "p3" (insert "p2" ({"p1"} : Finset String))).card = 3 := by
    decide
  refine ⟨?_, minSupport_example, ?_, ?_⟩
  · rw [detectAgreement_example]
    simp [hcard]
  · rw [roundSpec_example]
    decide
  · rw [roundSpec_example]
    decide

/-- Witness for C5 at the concrete example: the emitted point satisfies the
cutoff and has confidence `supporters / n`. -/
theorem C5_consensus_points_witness :
    minSupport exampleParticipants.length (3 / 4) ≤
      ({ statement := exampleStatement
         supportingParticipants := insert "p3" (insert "p2" {"p1"})
         confidence := (3 : Rat) / 5 } :
        ConsensusPoint).supportingParticipants.card ∧
    ({ statement := exampleStatement
       supportingParticipants := insert "p3" (insert "p2" {"p1"})
       confidence := (3 : Rat) / 5 } :
      ConsensusPoint).confidence =
      (({ statement := exampleStatement
          supportingParticipants := insert "p3" (insert "p2" {"p1"})
          confidence := (3 : Rat) / 5 } :
        ConsensusPoint).supportingParticipants.card : Rat) /
        (exampleParticipants.length : Rat) :=
  (C5_consensus_points exampleParticipants (3 / 4) examplePositions).2
    { statement := exampleStatement
      supportingParticipants := insert "p3" (insert "p2" {"p1"})
      confidence := (3 : Rat) / 5 }
    (by rw [detectAgreement_example]; simp)

end AISalon
